import Mathlib

/-!
Verification of the verified-claim registry and sector data-activation
pipeline of the builtin-actors repository.

The registry implementation itself ships outside this snapshot; the
definitions below are modelled from the specification (spec.md sections
3, 4.2, 4.3) with the behavioural details pinned by the unit tests of
the repository (actors/verifreg/tests/verifreg_actor_test.rs and
actors/miner/tests/prove_replica_test.rs).  Machine integers of the
source (u64 sizes, i64 chain epochs) are modelled as Nat and Int; the
values handled by the actors are far below the overflow range, and no
claim under study concerns wrap-around.  A method abort that discards
every staged mutation (spec section 5) is modelled by Except.error: an
aborted call returns no state, so no mutation of the caller-visible
state survives.
-/

namespace BuiltinActors

/-- Exit codes of the actor runtime that the modelled operations emit
(OK, USR_ILLEGAL_ARGUMENT, USR_NOT_FOUND, USR_FORBIDDEN). -/
inductive ExitCode where
  | ok
  | illegalArgument
  | notFound
  | forbidden
  deriving DecidableEq

/-- Modelled from the spec: an Allocation record (spec section 3).
Content ids are abstracted as Nat. -/
structure Allocation where
  client : Nat
  provider : Nat
  data : Nat
  size : Nat
  term_min : Int
  term_max : Int
  expiration : Int
  created_at : Int
  deriving DecidableEq

/-- Modelled from the spec: a Claim record (spec section 3). -/
structure Claim where
  client : Nat
  provider : Nat
  data : Nat
  size : Nat
  term_min : Int
  term_max : Int
  term_start : Int
  sector : Nat
  deriving DecidableEq

/-- Modelled from the spec: registry state.  Allocations are indexed by
(client, allocation id), claims by (provider, claim id) (spec section 6,
persisted layout), plus the sequential allocation-id counter used by the
receiver hook. -/
structure RegState where
  allocs : List ((Nat × Nat) × Allocation)
  claims : List ((Nat × Nat) × Claim)
  next_allocation_id : Nat
  deriving DecidableEq

/-- Look up an allocation in the client-indexed partition. -/
def lookupAlloc (st : RegState) (client id : Nat) : Option Allocation :=
  (st.allocs.find? (fun e => decide (e.fst = (client, id)))).map Prod.snd

/-- Look up a claim in the provider-indexed partition. -/
def lookupClaim (st : RegState) (provider id : Nat) : Option Claim :=
  (st.claims.find? (fun e => decide (e.fst = (provider, id)))).map Prod.snd

/-- Delete an allocation from the client partition. -/
def removeAlloc (st : RegState) (client id : Nat) : RegState :=
  { st with allocs := st.allocs.filter (fun e => !(decide (e.fst = (client, id)))) }

/-- Delete a claim from the provider partition. -/
def removeClaim (st : RegState) (provider id : Nat) : RegState :=
  { st with claims := st.claims.filter (fun e => !(decide (e.fst = (provider, id)))) }

/-- Insert a claim under (provider, id). -/
def putClaim (st : RegState) (provider id : Nat) (c : Claim) : RegState :=
  { st with claims := st.claims ++ [((provider, id), c)] }

/-- Replace the term_max of the claim stored under (provider, id). -/
def updateClaimTermMax (st : RegState) (provider id : Nat) (tmax : Int) : RegState :=
  { st with claims := st.claims.map (fun e =>
      if e.fst = (provider, id) then (e.fst, { e.snd with term_max := tmax }) else e) }

/-- Modelled from the spec: one requested claim of a ClaimAllocations
call (spec section 4.2). -/
structure AllocationClaim where
  client : Nat
  allocation_id : Nat
  data : Nat
  size : Nat
  deriving DecidableEq

/-- Modelled from the spec: the claims requested for one sector, with
the commitment expiry of that sector (spec section 4.2). -/
structure SectorAllocationClaims where
  sector : Nat
  expiry : Int
  claims : List AllocationClaim
  deriving DecidableEq

/-- Modelled from the spec: the per-claim admissibility test of
ClaimAllocations (spec section 4.2): provider match, client match, exact
data and size match, the allocation not yet expired, and the sector
lifetime within the term window of the allocation. -/
def can_claim_alloc (spec : AllocationClaim) (provider : Nat) (alloc : Allocation)
    (curr_epoch sector_expiry : Int) : Bool :=
  decide (provider = alloc.provider) &&
  decide (spec.client = alloc.client) &&
  decide (spec.data = alloc.data) &&
  decide (spec.size = alloc.size) &&
  decide (curr_epoch ≤ alloc.expiration) &&
  decide (alloc.term_min ≤ sector_expiry - curr_epoch) &&
  decide (sector_expiry - curr_epoch ≤ alloc.term_max)

/-- Validate one requested claim against the current registry state:
NotFound when no allocation sits under (client, allocationId), Forbidden
when the admissibility test fails, otherwise the allocation found. -/
def validateClaim (st : RegState) (provider : Nat) (curr expiry : Int)
    (spec : AllocationClaim) : Except ExitCode Allocation :=
  match lookupAlloc st spec.client spec.allocation_id with
  | none => Except.error ExitCode.notFound
  | some alloc =>
    if can_claim_alloc spec provider alloc curr expiry then Except.ok alloc
    else Except.error ExitCode.forbidden

/-- Claim record created when a requested claim is honoured: the data,
size and parties of the request, the term window of the allocation, and
term_start fixed at the current epoch (spec section 4.2). -/
def claimOfAlloc (spec : AllocationClaim) (provider : Nat) (alloc : Allocation)
    (curr : Int) (sector : Nat) : Claim :=
  { client := spec.client, provider := provider, data := spec.data, size := spec.size,
    term_min := alloc.term_min, term_max := alloc.term_max,
    term_start := curr, sector := sector }

/-- Validate every claim of one sector group, in order, against the
state at entry to the group; the first failure carries its exit code.
On success, returns the claim records to create and the claimed-space
total of the group. -/
def validateClaims (st : RegState) (provider : Nat) (curr expiry : Int) (sector : Nat) :
    List AllocationClaim → Except ExitCode (List (Nat × Claim) × Nat)
  | [] => Except.ok ([], 0)
  | spec :: rest =>
    match validateClaim st provider curr expiry spec with
    | Except.error c => Except.error c
    | Except.ok alloc =>
      match validateClaims st provider curr expiry sector rest with
      | Except.error c => Except.error c
      | Except.ok (cs, total) =>
        Except.ok ((spec.allocation_id, claimOfAlloc spec provider alloc curr sector) :: cs,
          spec.size + total)

/-- Apply the validated claims of one group: each new claim is inserted
under (provider, allocation id) and its allocation deleted.  A claim id
already present aborts the whole call with IllegalArgument; this is the
branch a repeated allocation id inside one group reaches, pinned by the
claim_allocs unit test. -/
def applyClaims (provider : Nat) : RegState → List (Nat × Claim) → Except ExitCode RegState
  | st, [] => Except.ok st
  | st, (id, c) :: rest =>
    match lookupClaim st provider id with
    | some _ => Except.error ExitCode.illegalArgument
    | none => applyClaims provider (removeAlloc (putClaim st provider id c) c.client id) rest

/-- Process one sector group: a validation failure makes the group fail
as one unit with the failing code and leaves the state untouched; on
success all its claims take effect and the claimed-space total is
reported. -/
def processGroup (provider : Nat) (curr : Int) (st : RegState)
    (g : SectorAllocationClaims) : Except ExitCode (ExitCode × Option Nat × RegState) :=
  match validateClaims st provider curr g.expiry g.sector g.claims with
  | Except.error c => Except.ok (c, none, st)
  | Except.ok (newClaims, total) =>
    match applyClaims provider st newClaims with
    | Except.error c => Except.error c
    | Except.ok st2 => Except.ok (ExitCode.ok, some total, st2)

/-- Return value of ClaimAllocations: one exit code per sector group and
a claimed-space total per successful group, plus the resulting state. -/
structure ClaimAllocationsResult where
  sector_results : List ExitCode
  sector_claims : List Nat
  state : RegState
  deriving DecidableEq

/-- Process the sector groups in order, threading the registry state. -/
def claimAllocationsAux (provider : Nat) (curr : Int) :
    RegState → List SectorAllocationClaims → Except ExitCode ClaimAllocationsResult
  | st, [] => Except.ok ⟨[], [], st⟩
  | st, g :: gs =>
    match processGroup provider curr st g with
    | Except.error c => Except.error c
    | Except.ok (code, space, st2) =>
      match claimAllocationsAux provider curr st2 gs with
      | Except.error c => Except.error c
      | Except.ok r =>
        Except.ok ⟨code :: r.sector_results,
          (match space with | some n => n :: r.sector_claims | none => r.sector_claims),
          r.state⟩

/-- Modelled from the spec: ClaimAllocations (spec section 4.2).  In
all-or-nothing mode any group failure aborts the whole call with
IllegalArgument (the abort code pinned by the claim_allocs unit test);
an aborted call returns no state, so no allocation or claim mutation
survives. -/
def claim_allocations (st : RegState) (provider : Nat) (curr : Int)
    (sectors : List SectorAllocationClaims) (allOrNothing : Bool) :
    Except ExitCode ClaimAllocationsResult :=
  match claimAllocationsAux provider curr st sectors with
  | Except.error c => Except.error c
  | Except.ok r =>
    if allOrNothing && r.sector_results.any (fun c => !(decide (c = ExitCode.ok))) then
      Except.error ExitCode.illegalArgument
    else Except.ok r

/-! Association-list lemmas for the keyed partitions. -/

theorem find_filter_key_none {α : Type} (k : Nat × Nat) :
    ∀ l : List ((Nat × Nat) × α),
      (l.filter (fun e => !(decide (e.fst = k)))).find? (fun e => decide (e.fst = k)) = none
  | [] => rfl
  | e :: l => by
    by_cases h : e.fst = k
    · simp [List.filter_cons, h, find_filter_key_none k l]
    · simp [List.filter_cons, h, List.find?_cons, find_filter_key_none k l]

theorem find_filter_key_ne {α : Type} (k j : Nat × Nat) (hne : j ≠ k) :
    ∀ l : List ((Nat × Nat) × α),
      (l.filter (fun e => !(decide (e.fst = k)))).find? (fun e => decide (e.fst = j)) =
        l.find? (fun e => decide (e.fst = j))
  | [] => rfl
  | e :: l => by
    have hkj : ¬(k = j) := fun hh => hne hh.symm
    by_cases h : e.fst = k
    · have hj : ¬(e.fst = j) := fun hh => hne (hh.symm.trans h)
      simp [List.filter_cons, h, List.find?_cons, hj, hne, hkj,
        find_filter_key_ne k j hne l]
    · by_cases hj : e.fst = j
      · simp [List.filter_cons, h, List.find?_cons, hj, hne, hkj]
      · simp [List.filter_cons, h, List.find?_cons, hj, hne, hkj,
          find_filter_key_ne k j hne l]

theorem find_append_of_none {α : Type} (p : (Nat × Nat) × α → Bool) :
    ∀ l₁ l₂ : List ((Nat × Nat) × α), l₁.find? p = none →
      (l₁ ++ l₂).find? p = l₂.find? p
  | [], _, _ => by simp
  | e :: l₁, l₂, h => by
    by_cases hp : p e
    · simp [List.find?_cons, hp] at h
    · simp only [List.find?_cons, hp] at h
      simp [List.find?_cons, hp, find_append_of_none p l₁ l₂ h]

theorem lookupAlloc_removeAlloc_self (st : RegState) (c i : Nat) :
    lookupAlloc (removeAlloc st c i) c i = none := by
  unfold lookupAlloc removeAlloc
  simp [find_filter_key_none]

theorem lookupAlloc_removeAlloc_ne (st : RegState) (c i c2 i2 : Nat)
    (h : (c2, i2) ≠ (c, i)) :
    lookupAlloc (removeAlloc st c i) c2 i2 = lookupAlloc st c2 i2 := by
  unfold lookupAlloc removeAlloc
  simp [find_filter_key_ne (c, i) (c2, i2) h]

theorem lookupAlloc_putClaim (st : RegState) (p i : Nat) (cl : Claim) (c2 i2 : Nat) :
    lookupAlloc (putClaim st p i cl) c2 i2 = lookupAlloc st c2 i2 := rfl

theorem lookupClaim_removeAlloc (st : RegState) (c i p j : Nat) :
    lookupClaim (removeAlloc st c i) p j = lookupClaim st p j := rfl

theorem lookupClaim_putClaim_self (st : RegState) (p i : Nat) (cl : Claim)
    (h : lookupClaim st p i = none) :
    lookupClaim (putClaim st p i cl) p i = some cl := by
  unfold lookupClaim putClaim
  unfold lookupClaim at h
  have hfind : st.claims.find? (fun e => decide (e.fst = (p, i))) = none := by
    cases hf : st.claims.find? (fun e => decide (e.fst = (p, i))) with
    | none => rfl
    | some e => rw [hf] at h; simp at h
  rw [find_append_of_none _ _ _ hfind]
  simp [List.find?_cons]

/-! Equation and inversion lemmas for the ClaimAllocations pipeline. -/

theorem processGroup_eq_fail (provider : Nat) (curr : Int) (st : RegState)
    (g : SectorAllocationClaims) (c : ExitCode)
    (hv : validateClaims st provider curr g.expiry g.sector g.claims = Except.error c) :
    processGroup provider curr st g = Except.ok (c, none, st) := by
  unfold processGroup
  rw [hv]

theorem processGroup_eq_ok (provider : Nat) (curr : Int) (st : RegState)
    (g : SectorAllocationClaims) (ncs : List (Nat × Claim)) (total : Nat) (st2 : RegState)
    (hv : validateClaims st provider curr g.expiry g.sector g.claims = Except.ok (ncs, total))
    (ha : applyClaims provider st ncs = Except.ok st2) :
    processGroup provider curr st g = Except.ok (ExitCode.ok, some total, st2) := by
  unfold processGroup
  rw [hv]
  dsimp only
  rw [ha]

theorem processGroup_eq_abort (provider : Nat) (curr : Int) (st : RegState)
    (g : SectorAllocationClaims) (ncs : List (Nat × Claim)) (total : Nat) (c : ExitCode)
    (hv : validateClaims st provider curr g.expiry g.sector g.claims = Except.ok (ncs, total))
    (ha : applyClaims provider st ncs = Except.error c) :
    processGroup provider curr st g = Except.error c := by
  unfold processGroup
  rw [hv]
  dsimp only
  rw [ha]

theorem validateClaim_error_ne_ok (st : RegState) (provider : Nat) (curr expiry : Int)
    (spec : AllocationClaim) (c : ExitCode)
    (h : validateClaim st provider curr expiry spec = Except.error c) : c ≠ ExitCode.ok := by
  unfold validateClaim at h
  split at h
  · injection h with h
    subst h
    simp
  · split at h
    · exact absurd h (by simp)
    · injection h with h
      subst h
      simp

theorem validateClaims_error_ne_ok (st : RegState) (provider : Nat) (curr expiry : Int)
    (sector : Nat) :
    ∀ (specs : List AllocationClaim) (c : ExitCode),
      validateClaims st provider curr expiry sector specs = Except.error c → c ≠ ExitCode.ok
  | [], c, h => by exact absurd h (by simp [validateClaims])
  | spec :: rest, c, h => by
    unfold validateClaims at h
    split at h
    · rename_i c2 hvc
      injection h with h
      subst h
      exact validateClaim_error_ne_ok st provider curr expiry spec _ hvc
    · rename_i alloc hvc
      split at h
      · rename_i c2 hr
        injection h with h
        subst h
        exact validateClaims_error_ne_ok st provider curr expiry sector rest _ hr
      · exact absurd h (by simp)

theorem claim_allocations_independent (st : RegState) (provider : Nat) (curr : Int)
    (sectors : List SectorAllocationClaims) :
    claim_allocations st provider curr sectors false =
      claimAllocationsAux provider curr st sectors := by
  unfold claim_allocations
  cases claimAllocationsAux provider curr st sectors with
  | error c => rfl
  | ok r => simp

theorem claimAllocationsAux_cons_fail (provider : Nat) (curr : Int) (st : RegState)
    (g : SectorAllocationClaims) (gs : List SectorAllocationClaims) (code : ExitCode)
    (h : processGroup provider curr st g = Except.ok (code, none, st)) :
    claimAllocationsAux provider curr st (g :: gs) =
      match claimAllocationsAux provider curr st gs with
      | Except.error c => Except.error c
      | Except.ok r =>
        Except.ok ⟨code :: r.sector_results, r.sector_claims, r.state⟩ := by
  have heq : claimAllocationsAux provider curr st (g :: gs) =
      match processGroup provider curr st g with
      | Except.error c => Except.error c
      | Except.ok (code2, space2, st2) =>
        match claimAllocationsAux provider curr st2 gs with
        | Except.error c => Except.error c
        | Except.ok r =>
          Except.ok ⟨code2 :: r.sector_results,
            (match space2 with | some n => n :: r.sector_claims | none => r.sector_claims),
            r.state⟩ := rfl
  rw [heq, h]

theorem processGroup_singleton_ok (provider : Nat) (curr : Int) (st : RegState)
    (sec : Nat) (expiry : Int) (spec : AllocationClaim) (sp : Option Nat) (st2 : RegState)
    (h : processGroup provider curr st ⟨sec, expiry, [spec]⟩ =
      Except.ok (ExitCode.ok, sp, st2)) :
    ∃ a, validateClaim st provider curr expiry spec = Except.ok a ∧
      lookupClaim st provider spec.allocation_id = none ∧
      st2 = removeAlloc (putClaim st provider spec.allocation_id
        (claimOfAlloc spec provider a curr sec)) spec.client spec.allocation_id := by
  unfold processGroup at h
  dsimp only at h
  split at h
  · rename_i c hv
    injection h with h
    have hc : c = ExitCode.ok := congrArg Prod.fst h
    exact absurd hc (validateClaims_error_ne_ok st provider curr expiry sec [spec] c hv)
  · rename_i ncs total hv
    -- invert the singleton validation
    unfold validateClaims at hv
    split at hv
    · exact absurd hv (by simp)
    · rename_i a hvc
      unfold validateClaims at hv
      dsimp only at hv
      injection hv with hv
      have hncs : ncs = [(spec.allocation_id, claimOfAlloc spec provider a curr sec)] :=
        (congrArg Prod.fst hv).symm
      subst hncs
      split at h
      · exact absurd h (by simp)
      · rename_i st3 ha
        injection h with h
        have hst : st3 = st2 := congrArg (fun p => p.2.2) h
        unfold applyClaims at ha
        split at ha
        · exact absurd ha (by simp)
        · rename_i hl
          unfold applyClaims at ha
          injection ha with ha
          exact ⟨a, hvc, hl, by rw [← hst, ← ha]; rfl⟩

/-! Concrete registry scenario used by the claim witnesses. -/

/-- Concrete allocation of client 101 at provider 301. -/
def exAlloc1 : Allocation :=
  { client := 101, provider := 301, data := 11, size := 8,
    term_min := 100, term_max := 200, expiration := 50, created_at := 0 }

/-- Concrete allocation of client 102 at provider 301. -/
def exAlloc2 : Allocation :=
  { client := 102, provider := 301, data := 12, size := 16,
    term_min := 100, term_max := 200, expiration := 50, created_at := 0 }

/-- Registry holding the two concrete allocations and no claims. -/
def exState : RegState :=
  { allocs := [((101, 1), exAlloc1), ((102, 2), exAlloc2)],
    claims := [], next_allocation_id := 3 }

/-- Well-formed request for the first concrete allocation. -/
def exSpec1 : AllocationClaim := { client := 101, allocation_id := 1, data := 11, size := 8 }

/-- Sector group whose single claim is honoured at epoch 0. -/
def exGroupGood : SectorAllocationClaims := { sector := 1000, expiry := 150, claims := [exSpec1] }

/-- Sector group whose single claim fails the data match (Forbidden). -/
def exGroupBad : SectorAllocationClaims :=
  { sector := 1001, expiry := 150,
    claims := [{ client := 102, allocation_id := 2, data := 999, size := 16 }] }

/-- Claim record created when exSpec1 is honoured in sector 1000 at epoch 0. -/
def exClaim1 : Claim := claimOfAlloc exSpec1 301 exAlloc1 0 1000

/-- Registry state after the first concrete allocation is claimed. -/
def exSt1 : RegState := removeAlloc (putClaim exState 301 1 exClaim1) 101 1

example : processGroup 301 0 exState exGroupBad =
    Except.ok (ExitCode.forbidden, none, exState) := by rfl

example : processGroup 301 0 exState exGroupGood =
    Except.ok (ExitCode.ok, some 8, exSt1) := by rfl

/-- Unfolded admissibility conditions of one requested claim. -/
theorem can_claim_alloc_iff (spec : AllocationClaim) (provider : Nat) (alloc : Allocation)
    (curr expiry : Int) :
    can_claim_alloc spec provider alloc curr expiry = true ↔
      (provider = alloc.provider ∧ spec.client = alloc.client ∧ spec.data = alloc.data ∧
       spec.size = alloc.size ∧ curr ≤ alloc.expiration ∧
       alloc.term_min ≤ expiry - curr ∧ expiry - curr ≤ alloc.term_max) := by
  unfold can_claim_alloc
  simp [Bool.and_eq_true, decide_eq_true_eq, and_assoc]

/-- C1: in all-or-nothing mode a ClaimAllocations call that returns at
all returns only OK codes — any failing claim aborts the whole call, and
an abort discards every staged mutation, so no Allocation is deleted and
no Claim is created.  In independent mode a failing sector group leaves
the registry state exactly as it found it (its own claims are rolled
back as one unit), and deleting a failed group from the call changes
nothing for the other groups: each group result depends only on the
state left by the preceding groups. -/
theorem c1_claim_allocations_atomicity :
    (∀ (st : RegState) (provider : Nat) (curr : Int)
        (sectors : List SectorAllocationClaims) (r : ClaimAllocationsResult),
        claim_allocations st provider curr sectors true = Except.ok r →
        ∀ c ∈ r.sector_results, c = ExitCode.ok)
    ∧ (∀ (provider : Nat) (curr : Int) (st : RegState) (g : SectorAllocationClaims)
        (code : ExitCode) (space : Option Nat) (st2 : RegState),
        processGroup provider curr st g = Except.ok (code, space, st2) →
        code ≠ ExitCode.ok → st2 = st ∧ space = none)
    ∧ (∀ (st : RegState) (provider : Nat) (curr : Int) (g : SectorAllocationClaims)
        (gs : List SectorAllocationClaims) (code : ExitCode),
        processGroup provider curr st g = Except.ok (code, none, st) →
        code ≠ ExitCode.ok →
        claim_allocations st provider curr (g :: gs) false =
          (claim_allocations st provider curr gs false).map
            (fun r => ⟨code :: r.sector_results, r.sector_claims, r.state⟩)) := by
  refine ⟨?_, ?_, ?_⟩
  · intro st provider curr sectors r h c hc
    unfold claim_allocations at h
    split at h
    · exact absurd h (by simp)
    · rename_i r0 haux
      split at h
      · exact absurd h (by simp)
      · rename_i hcond
        injection h with h
        subst h
        simp only [Bool.true_and, List.any_eq_true, Bool.not_eq_true,
          decide_eq_false_iff_not] at hcond
        by_contra hne
        exact hcond ⟨c, hc, by simp [hne]⟩
  · intro provider curr st g code space st2 h hne
    unfold processGroup at h
    split at h
    · rename_i c hv
      injection h with h
      exact ⟨(show st = st2 from congrArg (fun p => p.2.2) h).symm,
        (show (none : Option Nat) = space from congrArg (fun p => p.2.1) h).symm⟩
    · rename_i ncs total hv
      split at h
      · exact absurd h (by simp)
      · rename_i st3 ha
        injection h with h
        exact absurd (show ExitCode.ok = code from congrArg Prod.fst h).symm hne
  · intro st provider curr g gs code h hne
    rw [claim_allocations_independent, claim_allocations_independent,
      claimAllocationsAux_cons_fail provider curr st g gs code h]
    cases claimAllocationsAux provider curr st gs with
    | error c => rfl
    | ok r => rfl

/-- C2: one requested claim inside a ClaimAllocations call is admitted
exactly when an Allocation under (client, allocationId) exists for the
calling provider with exactly matching data and size, the current epoch
is at most its expiration, and the sector expiry lies within its term
window measured from the current epoch; when it is admitted (in a group
whose other claims also succeed), the Allocation is deleted, a Claim
with term_start equal to the current epoch is created under the provider
at the same id, and the claimed-space total of the group grows by the
piece size. -/
theorem c2_claim_conditions_and_effects :
    (∀ (st : RegState) (provider : Nat) (curr expiry : Int) (spec : AllocationClaim),
      (∃ a, validateClaim st provider curr expiry spec = Except.ok a) ↔
      (∃ a, lookupAlloc st spec.client spec.allocation_id = some a ∧
        provider = a.provider ∧ spec.client = a.client ∧ spec.data = a.data ∧
        spec.size = a.size ∧ curr ≤ a.expiration ∧
        a.term_min ≤ expiry - curr ∧ expiry - curr ≤ a.term_max))
    ∧ (∀ (st : RegState) (provider : Nat) (curr expiry : Int) (spec : AllocationClaim)
        (sector : Nat) (a : Allocation),
        validateClaim st provider curr expiry spec = Except.ok a →
        lookupClaim st provider spec.allocation_id = none →
        processGroup provider curr st ⟨sector, expiry, [spec]⟩ =
          Except.ok (ExitCode.ok, some spec.size,
            removeAlloc (putClaim st provider spec.allocation_id
              (claimOfAlloc spec provider a curr sector)) spec.client spec.allocation_id)
        ∧ lookupAlloc (removeAlloc (putClaim st provider spec.allocation_id
              (claimOfAlloc spec provider a curr sector)) spec.client spec.allocation_id)
            spec.client spec.allocation_id = none
        ∧ lookupClaim (removeAlloc (putClaim st provider spec.allocation_id
              (claimOfAlloc spec provider a curr sector)) spec.client spec.allocation_id)
            provider spec.allocation_id = some (claimOfAlloc spec provider a curr sector)) := by
  constructor
  · intro st provider curr expiry spec
    cases hl : lookupAlloc st spec.client spec.allocation_id with
    | none =>
      have hval : validateClaim st provider curr expiry spec =
          Except.error ExitCode.notFound := by
        unfold validateClaim; rw [hl]
      simp [hval]
    | some alloc =>
      have hval : validateClaim st provider curr expiry spec =
          if can_claim_alloc spec provider alloc curr expiry then Except.ok alloc
          else Except.error ExitCode.forbidden := by
        unfold validateClaim; rw [hl]
      by_cases hcc : can_claim_alloc spec provider alloc curr expiry
      · rw [if_pos hcc] at hval
        constructor
        · intro _
          exact ⟨alloc, rfl, (can_claim_alloc_iff spec provider alloc curr expiry).mp hcc⟩
        · intro _
          exact ⟨alloc, hval⟩
      · rw [if_neg hcc] at hval
        constructor
        · rintro ⟨a, ha⟩
          rw [hval] at ha
          exact absurd ha (by simp)
        · rintro ⟨a, ha, hrest⟩
          injection ha with ha
          subst ha
          exact absurd ((can_claim_alloc_iff spec provider alloc curr expiry).mpr hrest) hcc
  · intro st provider curr expiry spec sector a hval hclaim
    have hv : validateClaims st provider curr expiry sector [spec] =
        Except.ok ([(spec.allocation_id, claimOfAlloc spec provider a curr sector)],
          spec.size) := by
      unfold validateClaims
      rw [hval]
      dsimp only
      rw [show validateClaims st provider curr expiry sector [] =
        Except.ok (([] : List (Nat × Claim)), 0) from rfl]
      dsimp only
      simp
    have ha : applyClaims provider st
        [(spec.allocation_id, claimOfAlloc spec provider a curr sector)] =
        Except.ok (removeAlloc (putClaim st provider spec.allocation_id
          (claimOfAlloc spec provider a curr sector)) spec.client spec.allocation_id) := by
      unfold applyClaims
      rw [hclaim]
      dsimp only
      rfl
    refine ⟨processGroup_eq_ok provider curr st ⟨sector, expiry, [spec]⟩ _ _ _ hv ha, ?_, ?_⟩
    · exact lookupAlloc_removeAlloc_self _ spec.client spec.allocation_id
    · rw [lookupClaim_removeAlloc]
      exact lookupClaim_putClaim_self st provider spec.allocation_id _ hclaim

/-- Witness for C1: the independent-mode conjunct applied to the
concrete registry, a failing group and a succeeding group. -/
theorem c1_claim_allocations_atomicity_witness :
    processGroup 301 0 exState exGroupBad =
      Except.ok (ExitCode.forbidden, none, exState) ∧
    claim_allocations exState 301 0 [exGroupBad, exGroupGood] false =
      (claim_allocations exState 301 0 [exGroupGood] false).map
        (fun r => ⟨ExitCode.forbidden :: r.sector_results, r.sector_claims, r.state⟩) :=
  ⟨by rfl, c1_claim_allocations_atomicity.2.2 exState 301 0 exGroupBad [exGroupGood]
    ExitCode.forbidden (by rfl) (by decide)⟩

/-- Witness for C2: the effects conjunct applied to the concrete
registry and the well-formed request for allocation 1. -/
theorem c2_claim_conditions_and_effects_witness :
    validateClaim exState 301 0 150 exSpec1 = Except.ok exAlloc1 ∧
    lookupClaim exState 301 1 = none ∧
    (processGroup 301 0 exState ⟨1000, 150, [exSpec1]⟩ =
        Except.ok (ExitCode.ok, some exSpec1.size, exSt1) ∧
      lookupAlloc exSt1 101 1 = none ∧
      lookupClaim exSt1 301 1 = some exClaim1) :=
  ⟨by rfl, by rfl,
    c2_claim_conditions_and_effects.2 exState 301 0 150 exSpec1 1000 exAlloc1 rfl rfl⟩

/-- C5 counterexample: repeating allocation id 1 inside a single sector
group does not yield a per-request NotFound with the first claim
standing; instead the whole call aborts with IllegalArgument, even in
independent mode, exactly as the claim_allocs unit test expects. -/
theorem c5_counterexample :
    claim_allocations exState 301 0
      [{ sector := 1000, expiry := 150, claims := [exSpec1, exSpec1] }] false =
      Except.error ExitCode.illegalArgument := by rfl

/-- C5 (amended): an allocation id already claimed by an earlier sector
group of the same call is rejected as NotFound for the repeating
request, the earlier claim standing untouched; but a repeated
allocation id inside one sector group aborts the whole call with
IllegalArgument. -/
theorem c5_repeat_claims :
    (∀ (st : RegState) (provider : Nat) (curr : Int) (sec1 sec2 : Nat)
        (expiry1 expiry2 : Int) (spec : AllocationClaim) (sp : Option Nat) (st2 : RegState),
        processGroup provider curr st ⟨sec1, expiry1, [spec]⟩ =
          Except.ok (ExitCode.ok, sp, st2) →
        processGroup provider curr st2 ⟨sec2, expiry2, [spec]⟩ =
          Except.ok (ExitCode.notFound, none, st2))
    ∧ (∀ (st : RegState) (provider : Nat) (curr : Int) (sec : Nat) (expiry : Int)
        (spec : AllocationClaim) (a : Allocation),
        validateClaim st provider curr expiry spec = Except.ok a →
        claim_allocations st provider curr [⟨sec, expiry, [spec, spec]⟩] false =
          Except.error ExitCode.illegalArgument) := by
  constructor
  · intro st provider curr sec1 sec2 expiry1 expiry2 spec sp st2 h
    obtain ⟨a, hval, hclaim, hst2⟩ :=
      processGroup_singleton_ok provider curr st sec1 expiry1 spec sp st2 h
    have hnone : lookupAlloc st2 spec.client spec.allocation_id = none := by
      rw [hst2]
      exact lookupAlloc_removeAlloc_self _ spec.client spec.allocation_id
    have hvc : validateClaim st2 provider curr expiry2 spec =
        Except.error ExitCode.notFound := by
      unfold validateClaim
      rw [hnone]
    have hvs : validateClaims st2 provider curr expiry2 sec2 [spec] =
        Except.error ExitCode.notFound := by
      unfold validateClaims
      rw [hvc]
    exact processGroup_eq_fail provider curr st2 ⟨sec2, expiry2, [spec]⟩ _ hvs
  · intro st provider curr sec expiry spec a hval
    have hv : validateClaims st provider curr expiry sec [spec, spec] =
        Except.ok ([(spec.allocation_id, claimOfAlloc spec provider a curr sec),
          (spec.allocation_id, claimOfAlloc spec provider a curr sec)],
          spec.size + (spec.size + 0)) := by
      unfold validateClaims
      rw [hval]
      dsimp only
      unfold validateClaims
      rw [hval]
      dsimp only
      rw [show validateClaims st provider curr expiry sec [] =
        Except.ok (([] : List (Nat × Claim)), 0) from rfl]
    have ha : applyClaims provider st
        [(spec.allocation_id, claimOfAlloc spec provider a curr sec),
         (spec.allocation_id, claimOfAlloc spec provider a curr sec)] =
        Except.error ExitCode.illegalArgument := by
      unfold applyClaims
      cases hl : lookupClaim st provider spec.allocation_id with
      | some c0 => rfl
      | none =>
        dsimp only
        unfold applyClaims
        rw [lookupClaim_removeAlloc, lookupClaim_putClaim_self st provider _ _ hl]
    have hpg : processGroup provider curr st ⟨sec, expiry, [spec, spec]⟩ =
        Except.error ExitCode.illegalArgument :=
      processGroup_eq_abort provider curr st ⟨sec, expiry, [spec, spec]⟩ _ _ _ hv ha
    unfold claim_allocations claimAllocationsAux
    rw [hpg]

/-- Witness for C5: the cross-group conjunct applied to the concrete
registry: the second group repeating allocation 1 reports NotFound while
the claim made by the first group stands. -/
theorem c5_repeat_claims_witness :
    processGroup 301 0 exState ⟨1000, 150, [exSpec1]⟩ =
      Except.ok (ExitCode.ok, some 8, exSt1) ∧
    processGroup 301 0 exSt1 ⟨1001, 150, [exSpec1]⟩ =
      Except.ok (ExitCode.notFound, none, exSt1) :=
  ⟨by rfl, c5_repeat_claims.1 exState 301 0 1000 1001 150 150 exSpec1 (some 8) exSt1 (by rfl)⟩

/-! ExtendClaimTerms (spec section 4.2). -/

/-- Modelled from the spec: the policy-constant table threaded through
every validating operation (spec sections 3, 4.3, 9). -/
structure Policy where
  minimum_verified_allocation_size : Nat
  minimum_verified_allocation_term : Int
  maximum_verified_allocation_term : Int
  maximum_verified_allocation_expiration : Int
  deriving DecidableEq

/-- One entry of an ExtendClaimTerms request. -/
structure ClaimTerm where
  provider : Nat
  claim_id : Nat
  term_max : Int
  deriving DecidableEq

/-- Largest admissible new term_max: the policy maximum reckoned from
term_start, or from the current epoch when the claim has already
expired (spec section 4.2, reactivation). -/
def extensionLimit (pol : Policy) (curr : Int) (c : Claim) : Int :=
  if c.term_start + c.term_max < curr
  then curr - c.term_start + pol.maximum_verified_allocation_term
  else pol.maximum_verified_allocation_term

/-- Modelled from the spec: one entry of ExtendClaimTerms (spec section
4.2).  NotFound when the claim is absent under the named provider,
Forbidden when the caller is not the client of the claim,
IllegalArgument when the new term_max is strictly below the current one
(an equal term_max is a no-op success, pinned by the
extend_claims_edge_cases unit test) or beyond the policy limit;
otherwise the term_max is replaced. -/
def extendOne (pol : Policy) (caller : Nat) (curr : Int) (st : RegState) (t : ClaimTerm) :
    ExitCode × RegState :=
  match lookupClaim st t.provider t.claim_id with
  | none => (ExitCode.notFound, st)
  | some c =>
    if c.client = caller then
      if t.term_max < c.term_max then (ExitCode.illegalArgument, st)
      else if extensionLimit pol curr c < t.term_max then (ExitCode.illegalArgument, st)
      else (ExitCode.ok, updateClaimTermMax st t.provider t.claim_id t.term_max)
    else (ExitCode.forbidden, st)

/-- Modelled from the spec: ExtendClaimTerms, each entry independent
(spec section 4.2). -/
def extend_claim_terms (pol : Policy) (caller : Nat) (curr : Int) :
    RegState → List ClaimTerm → List ExitCode × RegState
  | st, [] => ([], st)
  | st, t :: ts =>
    let r := extendOne pol caller curr st t
    let rs := extend_claim_terms pol caller curr r.2 ts
    (r.1 :: rs.1, rs.2)

/-- Claim of client 101 at provider 301 used by the extension and sweep
scenarios. -/
def exClaimC6 : Claim :=
  { client := 101, provider := 301, data := 5, size := 10,
    term_min := 100, term_max := 200, term_start := 0, sector := 1 }

/-- Concrete policy table. -/
def exPolicy : Policy :=
  { minimum_verified_allocation_size := 8, minimum_verified_allocation_term := 100,
    maximum_verified_allocation_term := 1000,
    maximum_verified_allocation_expiration := 60 }

/-- Registry holding only the concrete claim under (301, 7). -/
def exStateC6 : RegState :=
  { allocs := [], claims := [((301, 7), exClaimC6)], next_allocation_id := 1 }

/-- C6 counterexample: an entry whose newTermMax equals the existing
term_max does not fail with IllegalArgument — it succeeds as a no-op,
exactly as the extend_claims_edge_cases unit test expects. -/
theorem c6_counterexample :
    extendOne exPolicy 101 0 exStateC6 { provider := 301, claim_id := 7, term_max := 200 } =
      (ExitCode.ok, exStateC6) := by rfl

/-- C6 (amended): for an entry whose caller is the client of the claim
and whose claim exists under the named provider, the extension succeeds
exactly when newTermMax is at least the existing term_max and within the
policy limit; a newTermMax strictly below the existing term_max fails
with IllegalArgument, and on success the stored term_max is replaced by
newTermMax. -/
theorem c6_extend_claim_terms :
    ∀ (pol : Policy) (caller : Nat) (curr : Int) (st : RegState) (t : ClaimTerm) (c : Claim),
      lookupClaim st t.provider t.claim_id = some c →
      c.client = caller →
      (((extendOne pol caller curr st t).1 = ExitCode.ok ↔
          (c.term_max ≤ t.term_max ∧ t.term_max ≤ extensionLimit pol curr c))
        ∧ (t.term_max < c.term_max →
            (extendOne pol caller curr st t).1 = ExitCode.illegalArgument)
        ∧ ((extendOne pol caller curr st t).1 = ExitCode.ok →
            (extendOne pol caller curr st t).2 =
              updateClaimTermMax st t.provider t.claim_id t.term_max)) := by
  intro pol caller curr st t c hl hcl
  have he : extendOne pol caller curr st t =
      (if t.term_max < c.term_max then (ExitCode.illegalArgument, st)
       else if extensionLimit pol curr c < t.term_max then (ExitCode.illegalArgument, st)
       else (ExitCode.ok, updateClaimTermMax st t.provider t.claim_id t.term_max)) := by
    unfold extendOne
    rw [hl]
    dsimp only
    rw [if_pos hcl]
  rw [he]
  by_cases h1 : t.term_max < c.term_max
  · rw [if_pos h1]
    refine ⟨?_, fun _ => rfl, ?_⟩
    · simp only [ExitCode]
      constructor
      · intro hh; exact absurd hh (by simp)
      · intro hh; omega
    · intro hh; exact absurd hh (by simp)
  · rw [if_neg h1]
    by_cases h2 : extensionLimit pol curr c < t.term_max
    · rw [if_pos h2]
      refine ⟨?_, fun hcon => absurd hcon h1, ?_⟩
      · constructor
        · intro hh; exact absurd hh (by simp)
        · intro hh; omega
      · intro hh; exact absurd hh (by simp)
    · rw [if_neg h2]
      exact ⟨⟨fun _ => ⟨by omega, by omega⟩, fun _ => rfl⟩,
        fun hcon => absurd hcon h1, fun _ => rfl⟩

/-- Witness for C6: the amended characterization applied to the
concrete claim with a strict extension from 200 to 300. -/
theorem c6_extend_claim_terms_witness :
    lookupClaim exStateC6 301 7 = some exClaimC6 ∧
    exClaimC6.client = 101 ∧
    (((extendOne exPolicy 101 0 exStateC6 ⟨301, 7, 300⟩).1 = ExitCode.ok ↔
        (exClaimC6.term_max ≤ 300 ∧ (300 : Int) ≤ extensionLimit exPolicy 0 exClaimC6))
      ∧ ((300 : Int) < exClaimC6.term_max →
          (extendOne exPolicy 101 0 exStateC6 ⟨301, 7, 300⟩).1 = ExitCode.illegalArgument)
      ∧ ((extendOne exPolicy 101 0 exStateC6 ⟨301, 7, 300⟩).1 = ExitCode.ok →
          (extendOne exPolicy 101 0 exStateC6 ⟨301, 7, 300⟩).2 =
            updateClaimTermMax exStateC6 301 7 300)) :=
  ⟨rfl, rfl, c6_extend_claim_terms exPolicy 101 0 exStateC6 ⟨301, 7, 300⟩ exClaimC6 rfl rfl⟩

/-! RemoveExpiredAllocations and RemoveExpiredClaims (spec section 4.2). -/

/-- An allocation is removable once the current epoch has reached its
expiration (the expire_allocs unit test removes at exactly the
expiration epoch). -/
def allocExpired (a : Allocation) (curr : Int) : Bool := decide (a.expiration ≤ curr)

/-- A claim is removable once term_start + term_max has passed (spec
section 3). -/
def claimExpired (c : Claim) (curr : Int) : Bool := decide (c.term_start + c.term_max ≤ curr)

/-- Return value of RemoveExpiredAllocations: the ids considered, one
exit code each, the recovered datacap and the resulting state. -/
structure RemoveExpiredResult where
  considered : List Nat
  codes : List ExitCode
  datacap_recovered : Nat
  state : RegState
  deriving DecidableEq

/-- Sweep an explicit id list for one client, threading the state: an
absent id is NotFound, a present unexpired one Forbidden, an expired one
is removed with OK and its size recovered. -/
def removeExpiredAllocsFor (client : Nat) (curr : Int) :
    RegState → List Nat → List ExitCode × Nat × RegState
  | st, [] => ([], 0, st)
  | st, id :: ids =>
    match lookupAlloc st client id with
    | none =>
      let r := removeExpiredAllocsFor client curr st ids
      (ExitCode.notFound :: r.1, r.2.1, r.2.2)
    | some a =>
      if allocExpired a curr then
        let r := removeExpiredAllocsFor client curr (removeAlloc st client id) ids
        (ExitCode.ok :: r.1, a.size + r.2.1, r.2.2)
      else
        let r := removeExpiredAllocsFor client curr st ids
        (ExitCode.forbidden :: r.1, r.2.1, r.2.2)

/-- Ids of the already-expired allocations of one client, in store
order: the set selected by a sweep with an empty id list. -/
def expiredAllocIds (st : RegState) (client : Nat) (curr : Int) : List Nat :=
  (st.allocs.filter (fun e => decide (e.fst.fst = client) && allocExpired e.snd curr)).map
    (fun e => e.fst.snd)

/-- Modelled from the spec: RemoveExpiredAllocations (spec section 4.2).
With an empty id list the ids selected from the full collection of the
owner are exactly those already expired (pinned by the expire_allocs
unit test); otherwise exactly the given ids are considered. -/
def remove_expired_allocations (st : RegState) (client : Nat) (ids : List Nat)
    (curr : Int) : RemoveExpiredResult :=
  let considered := if ids.isEmpty then expiredAllocIds st client curr else ids
  let r := removeExpiredAllocsFor client curr st considered
  ⟨considered, r.1, r.2.1, r.2.2⟩

/-- Sweep an explicit claim id list for one provider. -/
def removeExpiredClaimsFor (provider : Nat) (curr : Int) :
    RegState → List Nat → List ExitCode × RegState
  | st, [] => ([], st)
  | st, id :: ids =>
    match lookupClaim st provider id with
    | none =>
      let r := removeExpiredClaimsFor provider curr st ids
      (ExitCode.notFound :: r.1, r.2)
    | some c =>
      if claimExpired c curr then
        let r := removeExpiredClaimsFor provider curr (removeClaim st provider id) ids
        (ExitCode.ok :: r.1, r.2)
      else
        let r := removeExpiredClaimsFor provider curr st ids
        (ExitCode.forbidden :: r.1, r.2)

/-- Ids of the already-expired claims of one provider, in store order. -/
def expiredClaimIds (st : RegState) (provider : Nat) (curr : Int) : List Nat :=
  (st.claims.filter (fun e => decide (e.fst.fst = provider) && claimExpired e.snd curr)).map
    (fun e => e.fst.snd)

/-- Modelled from the spec: RemoveExpiredClaims (spec section 4.2). -/
def remove_expired_claims (st : RegState) (provider : Nat) (ids : List Nat)
    (curr : Int) : List Nat × List ExitCode × RegState :=
  let considered := if ids.isEmpty then expiredClaimIds st provider curr else ids
  let r := removeExpiredClaimsFor provider curr st considered
  ⟨considered, r.1, r.2⟩

/-- Exit code the sweep assigns to one allocation id against a fixed
state. -/
def expireAllocCode (st : RegState) (client : Nat) (curr : Int) (id : Nat) : ExitCode :=
  match lookupAlloc st client id with
  | none => ExitCode.notFound
  | some a => if allocExpired a curr then ExitCode.ok else ExitCode.forbidden

/-- Exit code the sweep assigns to one claim id against a fixed state. -/
def expireClaimCode (st : RegState) (provider : Nat) (curr : Int) (id : Nat) : ExitCode :=
  match lookupClaim st provider id with
  | none => ExitCode.notFound
  | some c => if claimExpired c curr then ExitCode.ok else ExitCode.forbidden

/-- Datacap recovered by sweeping the given allocation ids against a
fixed state: the sizes of those found and expired. -/
def sumExpiredSizes (st : RegState) (client : Nat) (curr : Int) (ids : List Nat) : Nat :=
  (ids.map (fun id =>
    match lookupAlloc st client id with
    | none => 0
    | some a => if allocExpired a curr then a.size else 0)).sum

theorem expireAllocCode_removeAlloc_ne (st : RegState) (client : Nat) (curr : Int)
    (id id2 : Nat) (h : id ≠ id2) :
    expireAllocCode (removeAlloc st client id2) client curr id =
      expireAllocCode st client curr id := by
  unfold expireAllocCode
  rw [lookupAlloc_removeAlloc_ne st client id2 client id (by simp [Prod.mk.injEq, h])]

theorem sumExpiredSizes_removeAlloc (st : RegState) (client : Nat) (curr : Int)
    (id2 : Nat) (ids : List Nat) (h : id2 ∉ ids) :
    sumExpiredSizes (removeAlloc st client id2) client curr ids =
      sumExpiredSizes st client curr ids := by
  induction ids with
  | nil => rfl
  | cons id ids ih =>
    simp only [List.mem_cons, not_or] at h
    have hne : id ≠ id2 := fun hh => h.1 (hh ▸ rfl)
    simp only [sumExpiredSizes, List.map_cons, List.sum_cons]
    rw [lookupAlloc_removeAlloc_ne st client id2 client id (by simp [Prod.mk.injEq, hne])]
    have ih2 := ih h.2
    simp only [sumExpiredSizes] at ih2
    rw [ih2]

theorem map_expireAllocCode_removeAlloc (st : RegState) (client : Nat) (curr : Int)
    (id2 : Nat) (ids : List Nat) (h : id2 ∉ ids) :
    ids.map (expireAllocCode (removeAlloc st client id2) client curr) =
      ids.map (expireAllocCode st client curr) := by
  induction ids with
  | nil => rfl
  | cons id ids ih =>
    simp only [List.mem_cons, not_or] at h
    have hne : id ≠ id2 := fun hh => h.1 (hh ▸ rfl)
    simp only [List.map_cons]
    rw [expireAllocCode_removeAlloc_ne st client curr id id2 hne, ih h.2]

theorem expireAllocCode_eq_none (st : RegState) (client : Nat) (curr : Int) (id : Nat)
    (hl : lookupAlloc st client id = none) :
    expireAllocCode st client curr id = ExitCode.notFound := by
  unfold expireAllocCode; rw [hl]

theorem expireAllocCode_eq_some (st : RegState) (client : Nat) (curr : Int) (id : Nat)
    (a : Allocation) (hl : lookupAlloc st client id = some a) :
    expireAllocCode st client curr id =
      (if allocExpired a curr then ExitCode.ok else ExitCode.forbidden) := by
  unfold expireAllocCode; rw [hl]

theorem sumExpiredSizes_cons_none (st : RegState) (client : Nat) (curr : Int) (id : Nat)
    (ids : List Nat) (hl : lookupAlloc st client id = none) :
    sumExpiredSizes st client curr (id :: ids) = sumExpiredSizes st client curr ids := by
  simp only [sumExpiredSizes, List.map_cons, List.sum_cons]
  rw [hl]
  simp

theorem sumExpiredSizes_cons_some (st : RegState) (client : Nat) (curr : Int) (id : Nat)
    (ids : List Nat) (a : Allocation) (hl : lookupAlloc st client id = some a) :
    sumExpiredSizes st client curr (id :: ids) =
      (if allocExpired a curr then a.size else 0) + sumExpiredSizes st client curr ids := by
  simp only [sumExpiredSizes, List.map_cons, List.sum_cons]
  rw [hl]

theorem removeExpiredAllocsFor_spec (client : Nat) (curr : Int) :
    ∀ (ids : List Nat) (st : RegState), ids.Nodup →
      (removeExpiredAllocsFor client curr st ids).1 =
        ids.map (expireAllocCode st client curr) ∧
      (removeExpiredAllocsFor client curr st ids).2.1 =
        sumExpiredSizes st client curr ids
  | [], st, _ => ⟨rfl, rfl⟩
  | id :: ids, st, h => by
    have hnb : id ∉ ids := (List.nodup_cons.mp h).1
    have hnd : ids.Nodup := (List.nodup_cons.mp h).2
    unfold removeExpiredAllocsFor
    cases hl : lookupAlloc st client id with
    | none =>
      have ih := removeExpiredAllocsFor_spec client curr ids st hnd
      exact ⟨by simp only [List.map_cons, expireAllocCode_eq_none st client curr id hl, ih.1],
        by rw [sumExpiredSizes_cons_none st client curr id ids hl, ih.2]⟩
    | some a =>
      dsimp only
      split
      · rename_i hexp
        have ih := removeExpiredAllocsFor_spec client curr ids (removeAlloc st client id) hnd
        have hc : expireAllocCode st client curr id = ExitCode.ok := by
          rw [expireAllocCode_eq_some st client curr id a hl, if_pos hexp]
        constructor
        · simp only [List.map_cons, hc, ih.1,
            map_expireAllocCode_removeAlloc st client curr id ids hnb]
        · rw [sumExpiredSizes_cons_some st client curr id ids a hl, if_pos hexp]
          dsimp only
          rw [ih.2, sumExpiredSizes_removeAlloc st client curr id ids hnb]
      · rename_i hexp
        have ih := removeExpiredAllocsFor_spec client curr ids st hnd
        have hc : expireAllocCode st client curr id = ExitCode.forbidden := by
          rw [expireAllocCode_eq_some st client curr id a hl, if_neg hexp]
        constructor
        · simp only [List.map_cons, hc, ih.1]
        · rw [sumExpiredSizes_cons_some st client curr id ids a hl, if_neg hexp]
          dsimp only
          rw [ih.2]
          simp

theorem find_of_mem_keys_nodup {α : Type} :
    ∀ (l : List ((Nat × Nat) × α)), (l.map Prod.fst).Nodup →
      ∀ e ∈ l, ∀ k, e.fst = k → l.find? (fun x => decide (x.fst = k)) = some e
  | [], _, e, he, _, _ => absurd he (List.not_mem_nil e)
  | h :: l, hnd, e, he, k, hk => by
    rw [List.map_cons, List.nodup_cons] at hnd
    rcases List.mem_cons.mp he with rfl | hmem
    · simp [List.find?_cons, hk]
    · by_cases hh : h.fst = k
      · have hmem2 : e.fst ∈ l.map Prod.fst := List.mem_map_of_mem Prod.fst hmem
        rw [hk, ← hh] at hmem2
        exact absurd hmem2 hnd.1
      · rw [List.find?_cons]
        have : (decide (h.fst = k)) = false := by simp [hh]
        rw [this]
        exact find_of_mem_keys_nodup l hnd.2 e hmem k hk

theorem expiredAllocIds_nodup (st : RegState) (client : Nat) (curr : Int)
    (hkeys : (st.allocs.map Prod.fst).Nodup) :
    (expiredAllocIds st client curr).Nodup := by
  unfold expiredAllocIds
  have hsub : List.Sublist ((st.allocs.filter
      (fun e => decide (e.fst.fst = client) && allocExpired e.snd curr)).map Prod.fst)
      (st.allocs.map Prod.fst) :=
    List.Sublist.map Prod.fst (List.filter_sublist st.allocs)
  have h2 : ((st.allocs.filter
      (fun e => decide (e.fst.fst = client) && allocExpired e.snd curr)).map Prod.fst).Nodup :=
    List.Nodup.sublist hsub hkeys
  refine List.Nodup.map_on ?_ (List.Nodup.of_map Prod.fst h2)
  intro x hx y hy hxy
  have hxc : x.fst.fst = client := by
    have := (List.mem_filter.mp hx).2
    simp only [Bool.and_eq_true, decide_eq_true_eq] at this
    exact this.1
  have hyc : y.fst.fst = client := by
    have := (List.mem_filter.mp hy).2
    simp only [Bool.and_eq_true, decide_eq_true_eq] at this
    exact this.1
  have hfst : x.fst = y.fst := by
    have h1 : x.fst = (client, x.fst.snd) := by
      rw [← hxc]
    have h2b : y.fst = (client, y.fst.snd) := by
      rw [← hyc]
    rw [h1, h2b, hxy]
  exact List.inj_on_of_nodup_map h2 hx hy hfst

theorem expireAllocCode_of_mem_expired (st : RegState) (client : Nat) (curr : Int)
    (id : Nat) (hkeys : (st.allocs.map Prod.fst).Nodup)
    (hmem : id ∈ expiredAllocIds st client curr) :
    expireAllocCode st client curr id = ExitCode.ok := by
  unfold expiredAllocIds at hmem
  obtain ⟨e, he, heq⟩ := List.mem_map.mp hmem
  obtain ⟨hel, hpred⟩ := List.mem_filter.mp he
  simp only [Bool.and_eq_true, decide_eq_true_eq] at hpred
  have hkey : e.fst = (client, id) := by
    have h1 : e.fst = (e.fst.fst, e.fst.snd) := rfl
    rw [h1, hpred.1, heq]
  have hfind := find_of_mem_keys_nodup st.allocs hkeys e hel (client, id) hkey
  have hla : lookupAlloc st client id = some e.snd := by
    unfold lookupAlloc; rw [hfind]; rfl
  rw [expireAllocCode_eq_some st client curr id e.snd hla, if_pos hpred.2]

theorem removeExpiredAllocsFor_none_preserved (client : Nat) (curr : Int) :
    ∀ (ids : List Nat) (st : RegState) (id : Nat),
      lookupAlloc st client id = none →
      lookupAlloc (removeExpiredAllocsFor client curr st ids).2.2 client id = none
  | [], _, _, h => h
  | id0 :: ids, st, id, h => by
    unfold removeExpiredAllocsFor
    cases hl : lookupAlloc st client id0 with
    | none => exact removeExpiredAllocsFor_none_preserved client curr ids st id h
    | some a =>
      dsimp only
      split
      · dsimp only
        apply removeExpiredAllocsFor_none_preserved client curr ids
        by_cases hi : id = id0
        · subst hi
          exact lookupAlloc_removeAlloc_self st client id
        · rw [lookupAlloc_removeAlloc_ne st client id0 client id
            (by simp [Prod.mk.injEq, hi])]
          exact h
      · exact removeExpiredAllocsFor_none_preserved client curr ids st id h

theorem removeExpiredAllocsFor_removed (client : Nat) (curr : Int) :
    ∀ (ids : List Nat) (st : RegState), ids.Nodup →
      ∀ id ∈ ids, expireAllocCode st client curr id = ExitCode.ok →
        lookupAlloc (removeExpiredAllocsFor client curr st ids).2.2 client id = none
  | [], _, _, id, hm, _ => absurd hm (List.not_mem_nil id)
  | id0 :: ids, st, hnd, id, hm, hcode => by
    have hnb : id0 ∉ ids := (List.nodup_cons.mp hnd).1
    have hnd2 : ids.Nodup := (List.nodup_cons.mp hnd).2
    unfold removeExpiredAllocsFor
    rcases List.mem_cons.mp hm with rfl | hmem
    · cases hl : lookupAlloc st client id with
      | none =>
        rw [expireAllocCode_eq_none st client curr id hl] at hcode
        exact absurd hcode (by simp)
      | some a =>
        dsimp only
        split
        · dsimp only
          exact removeExpiredAllocsFor_none_preserved client curr ids _ id
            (lookupAlloc_removeAlloc_self st client id)
        · rename_i hexp
          rw [expireAllocCode_eq_some st client curr id a hl, if_neg hexp] at hcode
          exact absurd hcode (by simp)
    · have hne : id ≠ id0 := fun hh => hnb (hh ▸ hmem)
      cases hl : lookupAlloc st client id0 with
      | none => exact removeExpiredAllocsFor_removed client curr ids st hnd2 id hmem hcode
      | some a =>
        dsimp only
        split
        · dsimp only
          apply removeExpiredAllocsFor_removed client curr ids _ hnd2 id hmem
          rw [expireAllocCode_removeAlloc_ne st client curr id id0 hne]
          exact hcode
        · exact removeExpiredAllocsFor_removed client curr ids st hnd2 id hmem hcode

/-- C7 counterexample: at epoch 0 the concrete registry holds two
allocations for client 101 and 102, neither expired; an empty-id sweep
for client 101 considers nothing and emits no exit code at all — the
present-but-unexpired allocation 1 does not receive a Forbidden code, so
the empty-id sweep does not scan the full collection in the sense the
claim states. -/
theorem c7_counterexample :
    remove_expired_allocations exState 101 [] 0 =
      { considered := [], codes := [], datacap_recovered := 0, state := exState } := by rfl

/-- C7 (amended): with an explicit non-empty id list, exactly the given
ids are considered and each receives one exit code — OK when found and
past its expiration (and it is removed), Forbidden when present but not
yet expired, NotFound when absent or owned by another client — and the
recovered datacap is the sum of the removed sizes.  With an empty id
list, only the ids already past their expiration are considered: each is
removed with code OK, the recovered datacap is the sum of their sizes,
and nothing else is touched.  RemoveExpiredClaims classifies each given
id the same way against the term bound term_start + term_max. -/
theorem c7_remove_expired :
    (∀ (st : RegState) (client : Nat) (curr : Int) (ids : List Nat),
        ids ≠ [] → ids.Nodup →
        (remove_expired_allocations st client ids curr).considered = ids ∧
        (remove_expired_allocations st client ids curr).codes =
          ids.map (expireAllocCode st client curr) ∧
        (remove_expired_allocations st client ids curr).datacap_recovered =
          sumExpiredSizes st client curr ids)
    ∧ (∀ (st : RegState) (client : Nat) (curr : Int),
        (st.allocs.map Prod.fst).Nodup →
        (remove_expired_allocations st client [] curr).considered =
          expiredAllocIds st client curr ∧
        (remove_expired_allocations st client [] curr).codes =
          (expiredAllocIds st client curr).map (fun _ => ExitCode.ok) ∧
        (remove_expired_allocations st client [] curr).datacap_recovered =
          sumExpiredSizes st client curr (expiredAllocIds st client curr) ∧
        ∀ id ∈ expiredAllocIds st client curr,
          lookupAlloc (remove_expired_allocations st client [] curr).state client id = none)
    ∧ (∀ (st : RegState) (provider : Nat) (curr : Int) (id : Nat),
        (remove_expired_claims st provider [id] curr).1 = [id] ∧
        (remove_expired_claims st provider [id] curr).2.1 =
          [expireClaimCode st provider curr id]) := by
  refine ⟨?_, ?_, ?_⟩
  · intro st client curr ids hne hnd
    have hie : ids.isEmpty = false := by
      cases ids with
      | nil => exact absurd rfl hne
      | cons a l => rfl
    have hspec := removeExpiredAllocsFor_spec client curr ids st hnd
    unfold remove_expired_allocations
    rw [hie]
    exact ⟨rfl, hspec.1, hspec.2⟩
  · intro st client curr hkeys
    have hnd := expiredAllocIds_nodup st client curr hkeys
    have hspec := removeExpiredAllocsFor_spec client curr (expiredAllocIds st client curr) st hnd
    have hcodes : (expiredAllocIds st client curr).map (expireAllocCode st client curr) =
        (expiredAllocIds st client curr).map (fun _ => ExitCode.ok) :=
      List.map_congr_left (fun id hid =>
        expireAllocCode_of_mem_expired st client curr id hkeys hid)
    refine ⟨rfl, ?_, ?_, ?_⟩
    · show (removeExpiredAllocsFor client curr st (expiredAllocIds st client curr)).1 = _
      rw [hspec.1, hcodes]
    · show (removeExpiredAllocsFor client curr st (expiredAllocIds st client curr)).2.1 = _
      exact hspec.2
    · intro id hid
      show lookupAlloc
        (removeExpiredAllocsFor client curr st (expiredAllocIds st client curr)).2.2
        client id = none
      exact removeExpiredAllocsFor_removed client curr (expiredAllocIds st client curr) st
        hnd id hid (expireAllocCode_of_mem_expired st client curr id hkeys hid)
  · intro st provider curr id
    refine ⟨rfl, ?_⟩
    show (removeExpiredClaimsFor provider curr st [id]).1 =
      [expireClaimCode st provider curr id]
    unfold removeExpiredClaimsFor
    dsimp only
    cases hl : lookupClaim st provider id with
    | none =>
      rw [show expireClaimCode st provider curr id = ExitCode.notFound by
        unfold expireClaimCode; rw [hl]]
      rfl
    | some c =>
      dsimp only
      rw [show expireClaimCode st provider curr id =
        (if claimExpired c curr then ExitCode.ok else ExitCode.forbidden) by
        unfold expireClaimCode; rw [hl]]
      split
      · rfl
      · rfl

/-- Witness for C7: the explicit-id conjunct applied to the concrete
registry at epoch 50, where allocation 1 has just expired and id 99 is
absent. -/
theorem c7_remove_expired_witness :
    ([1, 99] : List Nat) ≠ [] ∧ ([1, 99] : List Nat).Nodup ∧
    ((remove_expired_allocations exState 101 [1, 99] 50).considered = [1, 99] ∧
      (remove_expired_allocations exState 101 [1, 99] 50).codes =
        ([1, 99] : List Nat).map (expireAllocCode exState 101 50) ∧
      (remove_expired_allocations exState 101 [1, 99] 50).datacap_recovered =
        sumExpiredSizes exState 101 50 [1, 99]) :=
  ⟨by decide, by decide,
    c7_remove_expired.1 exState 101 50 [1, 99] (by decide) (by decide)⟩

/-! DataCap receiver hook (spec section 4.3). -/

/-- Modelled from the spec: an allocation request carried in the hook
payload. -/
structure AllocationRequest where
  provider : Nat
  data : Nat
  size : Nat
  term_min : Int
  term_max : Int
  expiration : Int
  deriving DecidableEq

/-- Modelled from the spec: a claim-term extension request carried in
the hook payload. -/
structure ClaimExtensionRequest where
  provider : Nat
  claim_id : Nat
  term_max : Int
  deriving DecidableEq

/-- Modelled from the spec: the decoded token-transfer payload handed to
the receiver hook: destination address, paying client, datacap amount
received and the requested allocations and extensions. -/
structure HookPayload where
  to_address : Nat
  client : Nat
  amount : Nat
  allocations : List AllocationRequest
  extensions : List ClaimExtensionRequest
  deriving DecidableEq

/-- Modelled from the spec: well-formedness of one allocation request
(spec sections 3 and 4.3): size at least the policy minimum, term
window inside the policy bounds, term_min at most term_max, and the
expiration no later than the policy maximum from the current epoch. -/
def validAllocationRequest (pol : Policy) (curr : Int) (req : AllocationRequest) : Bool :=
  decide (pol.minimum_verified_allocation_size ≤ req.size) &&
  decide (pol.minimum_verified_allocation_term ≤ req.term_min) &&
  decide (req.term_max ≤ pol.maximum_verified_allocation_term) &&
  decide (req.term_min ≤ req.term_max) &&
  decide (req.expiration ≤ curr + pol.maximum_verified_allocation_expiration)

/-- One extension request processed strictly inside the hook: the claim
must exist (NotFound), must not be expired (Forbidden), the new
term_max must be strictly larger than the current one and no larger
than the policy maximum from the current epoch (IllegalArgument); the
size of the extended claim is the datacap this request consumes
(behaviour pinned by the receive_invalid_extension_reqs unit test). -/
def hookExtendOne (pol : Policy) (curr : Int) (st : RegState)
    (req : ClaimExtensionRequest) : Except ExitCode (Nat × RegState) :=
  match lookupClaim st req.provider req.claim_id with
  | none => Except.error ExitCode.notFound
  | some c =>
    if c.term_start + c.term_max < curr then Except.error ExitCode.forbidden
    else if req.term_max ≤ c.term_max then Except.error ExitCode.illegalArgument
    else if curr - c.term_start + pol.maximum_verified_allocation_term < req.term_max then
      Except.error ExitCode.illegalArgument
    else Except.ok (c.size, updateClaimTermMax st req.provider req.claim_id req.term_max)

/-- Process the extension requests in order, accumulating the datacap
they consume; the first failure aborts the hook. -/
def hookExtendAll (pol : Policy) (curr : Int) :
    RegState → List ClaimExtensionRequest → Except ExitCode (Nat × RegState)
  | st, [] => Except.ok (0, st)
  | st, req :: reqs =>
    match hookExtendOne pol curr st req with
    | Except.error c => Except.error c
    | Except.ok (n, st2) =>
      match hookExtendAll pol curr st2 reqs with
      | Except.error c => Except.error c
      | Except.ok (m, st3) => Except.ok (n + m, st3)

/-- Create one Allocation per request, assigning sequential ids from the
next_allocation_id counter; returns the new ids and the datacap
consumed. -/
def createAllocs (client : Nat) (curr : Int) :
    RegState → List AllocationRequest → List Nat × Nat × RegState
  | st, [] => ([], 0, st)
  | st, req :: reqs =>
    let id := st.next_allocation_id
    let st2 : RegState :=
      { allocs := st.allocs ++ [((client, id),
          { client := client, provider := req.provider, data := req.data, size := req.size,
            term_min := req.term_min, term_max := req.term_max,
            expiration := req.expiration, created_at := curr })],
        claims := st.claims,
        next_allocation_id := id + 1 }
    let r := createAllocs client curr st2 reqs
    (id :: r.1, req.size + r.2.1, r.2.2)

/-- Sum of the sizes of the requested allocations. -/
def sumAllocSizes (reqs : List AllocationRequest) : Nat := (reqs.map (fun r => r.size)).sum

/-- Modelled from the spec: the DataCap receiver hook (spec section
4.3).  The whole call is strict: a transfer not addressed to the
registry, any failing extension request, any malformed allocation
request, or a received amount different from the datacap consumed by
the allocations and extensions together aborts the call; an abort
returns no state, so no Allocation is created and no Claim term is
extended.  On success it returns the new allocation ids, the datacap
consumed by extensions, and the new state. -/
def universal_receiver_hook (pol : Policy) (registry : Nat) (curr : Int) (st : RegState)
    (p : HookPayload) : Except ExitCode (List Nat × Nat × RegState) :=
  if p.to_address = registry then
    match hookExtendAll pol curr st p.extensions with
    | Except.error c => Except.error c
    | Except.ok (extTotal, st2) =>
      if p.allocations.all (validAllocationRequest pol curr) then
        let r := createAllocs p.client curr st2 p.allocations
        if p.amount = r.2.1 + extTotal then Except.ok (r.1, extTotal, r.2.2)
        else Except.error ExitCode.illegalArgument
      else Except.error ExitCode.illegalArgument
  else Except.error ExitCode.illegalArgument

theorem createAllocs_size_sum (client : Nat) (curr : Int) :
    ∀ (reqs : List AllocationRequest) (st : RegState),
      (createAllocs client curr st reqs).2.1 = sumAllocSizes reqs
  | [], _ => rfl
  | req :: reqs, st => by
    unfold createAllocs
    dsimp only
    rw [createAllocs_size_sum client curr reqs]
    simp [sumAllocSizes]

/-- Hook payload extending claim 7 of provider 301 with no allocation
requests, paying 10 datacap (the size of the extended claim). -/
def exPayload : HookPayload :=
  { to_address := 400, client := 101, amount := 10, allocations := [],
    extensions := [{ provider := 301, claim_id := 7, term_max := 300 }] }

/-- Registry state after the hook extends claim 7 to term_max 300. -/
def exStateC9 : RegState := updateClaimTermMax exStateC6 301 7 300

/-- C9 counterexample: a hook call whose received amount (10) differs
from the sum of the requested allocation sizes (0, no allocation is
requested) does not revert: it succeeds, extending claim 7 and burning
the 10 datacap against the size of the extended claim, exactly as the
receive_tokens_extend_claims unit test expects. -/
theorem c9_counterexample :
    universal_receiver_hook exPolicy 400 0 exStateC6 exPayload =
      Except.ok ([], 10, exStateC9) ∧
    exPayload.amount ≠ sumAllocSizes exPayload.allocations := ⟨by rfl, by decide⟩

/-- C9 (amended): the hook is strict — any malformed allocation request
in the payload aborts the whole call (and an abort discards every
staged mutation, so no Allocation is created and no Claim term is
extended); and a call that succeeds received exactly the datacap
consumed by its allocation requests plus the sizes of the claims whose
terms it extended, addressed to the registry itself. -/
theorem c9_receiver_hook_strict :
    (∀ (pol : Policy) (registry : Nat) (curr : Int) (st : RegState) (p : HookPayload),
        p.allocations.all (validAllocationRequest pol curr) = false →
        ∃ c, universal_receiver_hook pol registry curr st p = Except.error c)
    ∧ (∀ (pol : Policy) (registry : Nat) (curr : Int) (st : RegState) (p : HookPayload)
        (ids : List Nat) (burnt : Nat) (st2 : RegState),
        universal_receiver_hook pol registry curr st p = Except.ok (ids, burnt, st2) →
        p.amount = sumAllocSizes p.allocations + burnt ∧ p.to_address = registry) := by
  constructor
  · intro pol registry curr st p hbad
    unfold universal_receiver_hook
    by_cases hto : p.to_address = registry
    · rw [if_pos hto]
      cases hx : hookExtendAll pol curr st p.extensions with
      | error c => exact ⟨c, rfl⟩
      | ok pr =>
        obtain ⟨extTotal, st2⟩ := pr
        dsimp only
        rw [hbad]
        exact ⟨ExitCode.illegalArgument, rfl⟩
    · rw [if_neg hto]
      exact ⟨ExitCode.illegalArgument, rfl⟩
  · intro pol registry curr st p ids burnt st2 h
    unfold universal_receiver_hook at h
    split at h
    · rename_i hto
      split at h
      · exact absurd h (by simp)
      · rename_i extTotal st3 hx
        split at h
        · rename_i hall
          dsimp only at h
          split at h
          · rename_i hamt
            injection h with h
            have hb : extTotal = burnt := congrArg (fun q => q.2.1) h
            refine ⟨?_, hto⟩
            rw [hamt, createAllocs_size_sum p.client curr p.allocations st3, hb]
          · exact absurd h (by simp)
        · exact absurd h (by simp)
    · exact absurd h (by simp)

/-- Witness for C9: the success-accounting conjunct applied to the
concrete extension-only hook call. -/
theorem c9_receiver_hook_strict_witness :
    universal_receiver_hook exPolicy 400 0 exStateC6 exPayload =
      Except.ok ([], 10, exStateC9) ∧
    (exPayload.amount = sumAllocSizes exPayload.allocations + 10 ∧ exPayload.to_address = 400) :=
  ⟨by rfl,
    c9_receiver_hook_strict.2 exPolicy 400 0 exStateC6 exPayload [] 10 exStateC9 (by rfl)⟩

/-! Sector data-activation pipeline of the Activation Orchestrator
(spec section 4.1). -/

/-- One deal notification attached to a piece. -/
structure DataActivationNotification where
  address : Nat
  payload : Nat
  deriving DecidableEq

/-- Modelled from the spec: a piece manifest: content id, size, an
optional verified-allocation key (client, allocation id), and the
notification requests (spec section 3). -/
structure PieceActivationManifest where
  cid : Nat
  size : Nat
  verified_allocation_key : Option (Nat × Nat)
  notify : List DataActivationNotification
  deriving DecidableEq

/-- Modelled from the spec: one sector update manifest.  The proof_ok
flag abstracts the verdict of the cryptographic proof collaborator for
this sector, which spec section 1 excludes from the modelled core. -/
structure SectorUpdateManifest where
  sector : Nat
  pieces : List PieceActivationManifest
  proof_ok : Bool
  deriving DecidableEq

/-- Per-sector on-chain info the orchestrator mutates: commitment
expiration, committed data bytes, verified bytes and the daily fee. -/
structure SectorInfo where
  expiration : Int
  data_size : Nat
  verified_size : Nat
  daily_fee : Nat
  deriving DecidableEq

/-- Miner-side state: the sector size of this miner and its sectors. -/
structure MinerState where
  sector_size : Nat
  sectors : List (Nat × SectorInfo)
  deriving DecidableEq

/-- Look up a sector record. -/
def lookupSector (mst : MinerState) (s : Nat) : Option SectorInfo :=
  (mst.sectors.find? (fun e => decide (e.fst = s))).map Prod.snd

/-- Replace the stored info of one sector. -/
def updateSector (mst : MinerState) (s : Nat) (info : SectorInfo) : MinerState :=
  { mst with sectors := mst.sectors.map (fun e => if e.fst = s then (s, info) else e) }

/-- Modelled from the spec: the sector daily-fee formula (spec sections
4.1 step 6 and 8): referenceFee × (verifiedBytes × 10 + unverifiedBytes)
divided by (sectorCapacity × 10) in integer floor arithmetic, where
referenceFee is the daily fee of a fully verified sector of this
capacity. -/
def sector_daily_fee (refFee capacity v u : Nat) : Nat :=
  refFee * (v * 10 + u) / (capacity * 10)

/-- Total bytes of a piece list. -/
def pieceSizesSum (pieces : List PieceActivationManifest) : Nat :=
  (pieces.map (fun p => p.size)).sum

/-- Bytes of the pieces that carry a verified-allocation key. -/
def verifiedBytes (pieces : List PieceActivationManifest) : Nat :=
  ((pieces.filter (fun p => p.verified_allocation_key.isSome)).map (fun p => p.size)).sum

/-- Bytes of the pieces without a verified-allocation key. -/
def unverifiedBytes (pieces : List PieceActivationManifest) : Nat :=
  ((pieces.filter (fun p => !(p.verified_allocation_key.isSome))).map (fun p => p.size)).sum

/-- Sector info recorded after a successful activation: occupied and
verified byte totals recomputed from the pieces, and the daily fee
recomputed by the fee formula (spec section 4.1 step 6). -/
def activatedInfo (refFee capacity : Nat) (old : SectorInfo)
    (pieces : List PieceActivationManifest) : SectorInfo :=
  { expiration := old.expiration,
    data_size := pieceSizesSum pieces,
    verified_size := verifiedBytes pieces,
    daily_fee := sector_daily_fee refFee capacity (verifiedBytes pieces)
      (unverifiedBytes pieces) }

/-- Quality-adjusted power of a live sector: the raw sector size plus
nine times its verified bytes (the ×10 verified weighting of spec
section 8, minus the raw component already counted; pinned by the
expected_power computation of the prove_replica_update2 integration
test). -/
def qaPower (sectorSize verified : Nat) : Int := (sectorSize : Int) + 9 * verified

/-- Power delta emitted for one updated sector (spec section 4.1 step
8): the raw-byte component of a live sector never changes on update,
the quality-adjusted component moves with the verified bytes. -/
def sectorPowerDelta (sectorSize : Nat) (old : SectorInfo) (newVerified : Nat) : Int × Int :=
  (0, qaPower sectorSize newVerified - qaPower sectorSize old.verified_size)

/-- Claim requests of one piece list: one per piece carrying a
verified-allocation key (spec section 4.1 step 3). -/
def claimsOfPieces (pieces : List PieceActivationManifest) : List AllocationClaim :=
  pieces.filterMap (fun p => p.verified_allocation_key.map
    (fun k => { client := k.1, allocation_id := k.2, data := p.cid, size := p.size }))

/-- One notified piece: data, size and the opaque payload. -/
structure PieceChange where
  data : Nat
  size : Nat
  payload : Nat
  deriving DecidableEq

/-- Per-sector notification-change record (spec section 4.1). -/
structure SectorChanges where
  sector : Nat
  minimum_commitment_epoch : Int
  added : List PieceChange
  deriving DecidableEq

/-- Notified pieces of one piece list, one entry per notification
request. -/
def pieceChangesOf (pieces : List PieceActivationManifest) : List PieceChange :=
  (pieces.map (fun p => p.notify.map
    (fun n => { data := p.cid, size := p.size, payload := n.payload }))).flatten

/-- Notification-change records of one sector: a single record carrying
the minimum commitment epoch, present only when the sector has at least
one notification (spec section 4.1). -/
def sectorChangesOf (m : SectorUpdateManifest) (info : SectorInfo) : List SectorChanges :=
  let added := pieceChangesOf m.pieces
  if added.isEmpty then []
  else [{ sector := m.sector, minimum_commitment_epoch := info.expiration, added := added }]

/-- Modelled from the spec: structural validation of one sector update
(spec section 4.1 steps 1 to 3): the sector exists and currently
carries zero committed data, the piece sizes fit the sector capacity
and the accompanying proof verified; on success, the claim-request
group for the registry and the current sector info. -/
def sectorPrep (mst : MinerState) (m : SectorUpdateManifest) :
    Option (SectorAllocationClaims × SectorInfo) :=
  match lookupSector mst m.sector with
  | none => none
  | some info =>
    if info.data_size = 0 ∧ pieceSizesSum m.pieces ≤ mst.sector_size ∧ m.proof_ok = true then
      some ({ sector := m.sector, expiry := info.expiration,
              claims := claimsOfPieces m.pieces }, info)
    else none

/-- Merge the per-sector validation outcomes with the per-group exit
codes of the registry call, in sector order: a sector that failed
validation gets IllegalArgument and consumes no registry code. -/
def mergeResults :
    List (SectorUpdateManifest × Option (SectorAllocationClaims × SectorInfo)) →
    List ExitCode → List (SectorUpdateManifest × Option SectorInfo × ExitCode)
  | [], _ => []
  | (m, none) :: rest, codes =>
    (m, none, ExitCode.illegalArgument) :: mergeResults rest codes
  | (m, some gi) :: rest, c :: codes => (m, some gi.2, c) :: mergeResults rest codes
  | (m, some gi) :: rest, [] =>
    (m, some gi.2, ExitCode.illegalArgument) :: mergeResults rest []

/-- Apply the local effects of the batch, sector by sector: only a
sector whose merged code is OK has its info replaced, contributes its
power delta and emits its notification records (spec section 4.1 steps
5 to 8). -/
def applySectorEffects (refFee capacity : Nat) :
    MinerState → List (SectorUpdateManifest × Option SectorInfo × ExitCode) →
    MinerState × (Int × Int) × List SectorChanges
  | mst, [] => (mst, (0, 0), [])
  | mst, (m, some info, ExitCode.ok) :: rest =>
    let d := sectorPowerDelta capacity info (verifiedBytes m.pieces)
    let r := applySectorEffects refFee capacity
      (updateSector mst m.sector (activatedInfo refFee capacity info m.pieces)) rest
    (r.1, (d.1 + r.2.1.1, d.2 + r.2.1.2), sectorChangesOf m info ++ r.2.2)
  | mst, _ :: rest => applySectorEffects refFee capacity mst rest

/-- Return value of the activation batch: one exit code per requested
sector, the claim groups issued to the registry, the notification
records, the power delta emitted to the power ledger, and the two
resulting states. -/
structure ActivationResult where
  codes : List ExitCode
  claims_made : List SectorAllocationClaims
  notifications : List SectorChanges
  power_delta : Int × Int
  miner : MinerState
  registry : RegState
  deriving DecidableEq

/-- Modelled from the spec: the sector activation orchestrator (spec
section 4.1).  Per-sector structural and proof validation; with
requireActivationSuccess set, any validation failure aborts the whole
call; one registry ClaimAllocations call carries all surviving claim
groups with all-or-nothing equal to requireActivationSuccess, and its
abort propagates; the per-sector codes merge validation failures with
the per-group registry codes; effects (sector info, fee, power delta,
notification records) are applied only for OK sectors.  notifResult
abstracts the deal-notification collaborator: its answers are computed
and then dropped, because a notification abort or explicit rejection is
tolerated and never escalates (spec sections 4.1 step 5, 7 and 9). -/
def activate_sectors (mst : MinerState) (rst : RegState) (minerId refFee : Nat)
    (curr : Int) (updates : List SectorUpdateManifest) (require : Bool)
    (notifResult : SectorChanges → ExitCode) : Except ExitCode ActivationResult :=
  let preps := updates.map (fun m => (m, sectorPrep mst m))
  if require && preps.any (fun pr => pr.2.isNone) then Except.error ExitCode.illegalArgument
  else
    let groups := preps.filterMap (fun pr => pr.2.map Prod.fst)
    match claim_allocations rst minerId curr groups require with
    | Except.error c => Except.error c
    | Except.ok cr =>
      let merged := mergeResults preps cr.sector_results
      let eff := applySectorEffects refFee mst.sector_size mst merged
      let answers := eff.2.2.map notifResult
      Except.ok { codes := merged.map (fun e => e.2.2), claims_made := groups,
                  notifications := (fun _ => eff.2.2) answers, power_delta := eff.2.1,
                  miner := eff.1, registry := cr.state }

/-- Piece filling an 8-byte sector with the data of allocation 1,
carrying its verified-allocation key. -/
def exPiece : PieceActivationManifest :=
  { cid := 11, size := 8, verified_allocation_key := some (101, 1), notify := [] }

/-- Sector 1000 before the update: empty, no verified data, no fee. -/
def exSectorInfo : SectorInfo :=
  { expiration := 150, data_size := 0, verified_size := 0, daily_fee := 0 }

/-- Miner with exactly the empty sector 1000 of capacity 8. -/
def exMiner : MinerState := { sector_size := 8, sectors := [(1000, exSectorInfo)] }

/-- Update manifest replacing the content of sector 1000 with exPiece. -/
def exManifest : SectorUpdateManifest :=
  { sector := 1000, pieces := [exPiece], proof_ok := true }

example : sectorPrep exMiner exManifest = some (exGroupGood, exSectorInfo) := by rfl

example : activate_sectors exMiner exState 301 100 0 [exManifest] true
    (fun _ => ExitCode.ok) =
    Except.ok { codes := [ExitCode.ok], claims_made := [exGroupGood], notifications := [],
                power_delta := (0, 72),
                miner := updateSector exMiner 1000 (activatedInfo 100 8 exSectorInfo [exPiece]),
                registry := exSt1 } := by rfl

/-- C8: a notification target abort or explicit rejection is recovered
locally and never escalates: the whole outcome of the activation batch
— per-sector codes, claims, persisted sector state, fees, power delta —
is invariant under the answers of the notification collaborator, which
the orchestrator computes and then drops (spec sections 4.1 step 5, 7
and 9; pinned by the aborted_notification_dropped and
rejected_notification_dropped unit tests). -/
theorem c8_notification_failures_tolerated :
    ∀ (mst : MinerState) (rst : RegState) (minerId refFee : Nat) (curr : Int)
      (updates : List SectorUpdateManifest) (require : Bool)
      (f g : SectorChanges → ExitCode),
      activate_sectors mst rst minerId refFee curr updates require f =
        activate_sectors mst rst minerId refFee curr updates require g :=
  fun _ _ _ _ _ _ _ _ _ => rfl

/-- C4 counterexample: with reference fee 15 and capacity 1, the fully
verified sector pays 15 while the equal unverified one pays 1; in exact
floor arithmetic 15 is not 10 times 1, so the ×10 relationship of the
claim fails for a reference fee not divisible by 10. -/
theorem c4_counterexample :
    ¬(sector_daily_fee 15 1 1 0 = 10 * sector_daily_fee 15 1 0 1) := by decide

/-- C4 (amended): every activated sector records the fee
referenceFee × (v × 10 + u) / (capacity × 10) in floor arithmetic; a
full sector of only unverified data pays the reference fee divided by
10 (floor), a fully verified one pays exactly the reference fee, and
the latter is exactly 10 times the former whenever the reference fee is
divisible by 10. -/
theorem c4_daily_fee :
    (∀ (refFee capacity : Nat) (old : SectorInfo) (pieces : List PieceActivationManifest),
        (activatedInfo refFee capacity old pieces).daily_fee =
          sector_daily_fee refFee capacity (verifiedBytes pieces) (unverifiedBytes pieces))
    ∧ (∀ refFee capacity : Nat, 0 < capacity →
        sector_daily_fee refFee capacity 0 capacity = refFee / 10)
    ∧ (∀ refFee capacity : Nat, 0 < capacity →
        sector_daily_fee refFee capacity capacity 0 = refFee)
    ∧ (∀ refFee capacity : Nat, 10 ∣ refFee → 0 < capacity →
        sector_daily_fee refFee capacity capacity 0 =
          10 * sector_daily_fee refFee capacity 0 capacity) := by
  have h2 : ∀ refFee capacity : Nat, 0 < capacity →
      sector_daily_fee refFee capacity 0 capacity = refFee / 10 := by
    intro refFee capacity hc
    unfold sector_daily_fee
    rw [show 0 * 10 + capacity = capacity by omega,
      Nat.mul_comm refFee capacity,
      Nat.mul_div_mul_left refFee 10 hc]
  have h3 : ∀ refFee capacity : Nat, 0 < capacity →
      sector_daily_fee refFee capacity capacity 0 = refFee := by
    intro refFee capacity hc
    unfold sector_daily_fee
    rw [show capacity * 10 + 0 = capacity * 10 by omega]
    exact Nat.mul_div_cancel refFee (by omega)
  refine ⟨fun _ _ _ _ => rfl, h2, h3, ?_⟩
  intro refFee capacity hdvd hc
  rw [h3 refFee capacity hc, h2 refFee capacity hc]
  omega

/-- Witness for C4: the amended fee relationships at reference fee 20
and capacity 8. -/
theorem c4_daily_fee_witness :
    (0 < 8 ∧ sector_daily_fee 20 8 0 8 = 20 / 10) ∧
    (sector_daily_fee 20 8 8 0 = 20) ∧
    ((10 : Nat) ∣ 20 ∧ sector_daily_fee 20 8 8 0 = 10 * sector_daily_fee 20 8 0 8) :=
  ⟨⟨by decide, c4_daily_fee.2.1 20 8 (by decide)⟩,
    c4_daily_fee.2.2.1 20 8 (by decide),
    ⟨by decide, c4_daily_fee.2.2.2 20 8 (by decide) (by decide)⟩⟩

/-- A piece list all of whose pieces carry a verified-allocation key
contributes its full byte total as verified bytes. -/
theorem verifiedBytes_of_all_verified (pieces : List PieceActivationManifest)
    (h : ∀ p ∈ pieces, p.verified_allocation_key.isSome) :
    verifiedBytes pieces = pieceSizesSum pieces := by
  unfold verifiedBytes pieceSizesSum
  rw [List.filter_eq_self.mpr h]

/-- Power-ledger claim of one miner (actors/power/src/lib.rs). -/
structure PowerClaim where
  raw_byte_power : Int
  quality_adj_power : Int
  deriving DecidableEq

/-- UpdateClaimedPower of the power actor adds the received deltas to
the claim of the calling miner (update_claimed_power in
actors/power/src/lib.rs; the addition itself lives in add_to_claim of
its state module, outside this snapshot). -/
def update_claimed_power (cl : PowerClaim) (delta : Int × Int) : PowerClaim :=
  { raw_byte_power := cl.raw_byte_power + delta.1,
    quality_adj_power := cl.quality_adj_power + delta.2 }

/-- C10: for a previously empty sector (zero committed and verified
data) replica-updated entirely with pieces carrying verified
allocations, the power delta emitted towards UpdateClaimedPower has a
zero raw-byte component and a quality-adjusted component of 9 times the
verified piece bytes, and applying it to a power claim leaves the
raw-byte power unchanged. -/
theorem c10_power_delta_verified_update :
    ∀ (sectorSize : Nat) (old : SectorInfo) (pieces : List PieceActivationManifest)
      (cl : PowerClaim),
      old.verified_size = 0 →
      (∀ p ∈ pieces, p.verified_allocation_key.isSome) →
      sectorPowerDelta sectorSize old (verifiedBytes pieces) =
        (0, 9 * (pieceSizesSum pieces : Int)) ∧
      update_claimed_power cl (sectorPowerDelta sectorSize old (verifiedBytes pieces)) =
        { raw_byte_power := cl.raw_byte_power,
          quality_adj_power := cl.quality_adj_power + 9 * (pieceSizesSum pieces : Int) } := by
  intro sectorSize old pieces cl hv hall
  have hd : sectorPowerDelta sectorSize old (verifiedBytes pieces) =
      (0, 9 * (pieceSizesSum pieces : Int)) := by
    unfold sectorPowerDelta qaPower
    rw [hv, verifiedBytes_of_all_verified pieces hall]
    simp only [Prod.mk.injEq]
    constructor
    · trivial
    · push_cast
      ring
  refine ⟨hd, ?_⟩
  rw [hd]
  unfold update_claimed_power
  simp

/-- Witness for C10: the delta for sector 1000 updated with the single
verified piece of 8 bytes. -/
theorem c10_power_delta_verified_update_witness :
    exSectorInfo.verified_size = 0 ∧
    (sectorPowerDelta 8 exSectorInfo (verifiedBytes [exPiece]) =
        (0, 9 * (pieceSizesSum [exPiece] : Int)) ∧
      update_claimed_power ⟨100, 100⟩ (sectorPowerDelta 8 exSectorInfo (verifiedBytes [exPiece])) =
        { raw_byte_power := 100,
          quality_adj_power := 100 + 9 * (pieceSizesSum [exPiece] : Int) }) :=
  ⟨rfl, c10_power_delta_verified_update 8 exSectorInfo [exPiece] ⟨100, 100⟩ rfl (by decide)⟩

/-! Lemmas for the activation batch (C3). -/

theorem find_map_update_ne (s2 s : Nat) (info : SectorInfo) (h : s ≠ s2) :
    ∀ l : List (Nat × SectorInfo),
      (l.map (fun e => if e.fst = s2 then (s2, info) else e)).find?
          (fun e => decide (e.fst = s)) =
        l.find? (fun e => decide (e.fst = s))
  | [] => rfl
  | e :: l => by
    have hs2 : ¬(s2 = s) := fun hh => h hh.symm
    rw [List.map_cons, List.find?_cons, List.find?_cons]
    by_cases he : e.fst = s2
    · have hes : ¬(e.fst = s) := fun hh => h (hh.symm.trans he)
      rw [if_pos he]
      rw [show (decide (((s2, info) : Nat × SectorInfo).fst = s)) = false by simp [hs2]]
      rw [show (decide (e.fst = s)) = false by simp [hes]]
      exact find_map_update_ne s2 s info h l
    · rw [if_neg he]
      by_cases hes : e.fst = s
      · rw [show (decide (e.fst = s)) = true by simp [hes]]
      · rw [show (decide (e.fst = s)) = false by simp [hes]]
        exact find_map_update_ne s2 s info h l

theorem lookupSector_updateSector_ne (mst : MinerState) (s2 s : Nat) (info : SectorInfo)
    (h : s ≠ s2) :
    lookupSector (updateSector mst s2 info) s = lookupSector mst s := by
  unfold lookupSector updateSector
  rw [find_map_update_ne s2 s info h]

theorem applySectorEffects_local (refFee cap : Nat) :
    ∀ (entries : List (SectorUpdateManifest × Option SectorInfo × ExitCode))
      (mst : MinerState) (s : Nat),
      (∀ e ∈ entries, e.2.2 = ExitCode.ok → e.1.sector ≠ s) →
      lookupSector (applySectorEffects refFee cap mst entries).1 s = lookupSector mst s
  | [], _, _, _ => rfl
  | (m, oi, c) :: rest, mst, s, h => by
    obtain ⟨h1, h2⟩ := List.forall_mem_cons.mp h
    cases oi with
    | none =>
      cases c <;> exact applySectorEffects_local refFee cap rest mst s h2
    | some info =>
      cases c with
      | ok =>
        have hne : m.sector ≠ s := h1 rfl
        unfold applySectorEffects
        dsimp only
        rw [applySectorEffects_local refFee cap rest _ s h2,
          lookupSector_updateSector_ne mst m.sector s _ (fun hh => hne hh.symm)]
      | illegalArgument => exact applySectorEffects_local refFee cap rest mst s h2
      | notFound => exact applySectorEffects_local refFee cap rest mst s h2
      | forbidden => exact applySectorEffects_local refFee cap rest mst s h2

theorem sectorChangesOf_sector (m : SectorUpdateManifest) (info : SectorInfo)
    (ch : SectorChanges) (h : ch ∈ sectorChangesOf m info) : ch.sector = m.sector := by
  unfold sectorChangesOf at h
  dsimp only at h
  split at h
  · exact absurd h (List.not_mem_nil ch)
  · rw [List.mem_singleton.mp h]

theorem applySectorEffects_notifs (refFee cap : Nat) :
    ∀ (entries : List (SectorUpdateManifest × Option SectorInfo × ExitCode))
      (mst : MinerState) (ch : SectorChanges),
      ch ∈ (applySectorEffects refFee cap mst entries).2.2 →
      ∃ e ∈ entries, e.2.2 = ExitCode.ok ∧ ch.sector = e.1.sector
  | [], _, ch, h => absurd h (List.not_mem_nil ch)
  | (m, oi, c) :: rest, mst, ch, h => by
    cases oi with
    | none =>
      cases c <;>
        · obtain ⟨e, he, hok, hs⟩ := applySectorEffects_notifs refFee cap rest mst ch h
          exact ⟨e, List.mem_cons_of_mem _ he, hok, hs⟩
    | some info =>
      cases c with
      | ok =>
        have h2 : ch ∈ sectorChangesOf m info ++ (applySectorEffects refFee cap
            (updateSector mst m.sector (activatedInfo refFee cap info m.pieces)) rest).2.2 := h
        rcases List.mem_append.mp h2 with hl | hr
        · exact ⟨(m, some info, ExitCode.ok), List.mem_cons_self _ _, rfl,
            sectorChangesOf_sector m info ch hl⟩
        · obtain ⟨e, he, hok, hs⟩ := applySectorEffects_notifs refFee cap rest _ ch hr
          exact ⟨e, List.mem_cons_of_mem _ he, hok, hs⟩
      | illegalArgument =>
        obtain ⟨e, he, hok, hs⟩ := applySectorEffects_notifs refFee cap rest mst ch h
        exact ⟨e, List.mem_cons_of_mem _ he, hok, hs⟩
      | notFound =>
        obtain ⟨e, he, hok, hs⟩ := applySectorEffects_notifs refFee cap rest mst ch h
        exact ⟨e, List.mem_cons_of_mem _ he, hok, hs⟩
      | forbidden =>
        obtain ⟨e, he, hok, hs⟩ := applySectorEffects_notifs refFee cap rest mst ch h
        exact ⟨e, List.mem_cons_of_mem _ he, hok, hs⟩

theorem mergeResults_fst :
    ∀ (preps : List (SectorUpdateManifest × Option (SectorAllocationClaims × SectorInfo)))
      (codes : List ExitCode),
      (mergeResults preps codes).map (fun e => e.1) = preps.map Prod.fst
  | [], _ => rfl
  | (m, none) :: rest, codes => by
    simp [mergeResults, mergeResults_fst rest codes]
  | (m, some gi) :: rest, [] => by
    simp [mergeResults, mergeResults_fst rest []]
  | (m, some gi) :: rest, c :: codes => by
    simp [mergeResults, mergeResults_fst rest codes]

theorem mergeResults_length
    (preps : List (SectorUpdateManifest × Option (SectorAllocationClaims × SectorInfo)))
    (codes : List ExitCode) :
    (mergeResults preps codes).length = preps.length := by
  have h := congrArg List.length (mergeResults_fst preps codes)
  rw [List.length_map, List.length_map] at h
  exact h

theorem mergeResults_all_ok :
    ∀ (preps : List (SectorUpdateManifest × Option (SectorAllocationClaims × SectorInfo)))
      (codes : List ExitCode),
      (∀ pr ∈ preps, pr.2.isSome = true) → codes.length = preps.length →
      (∀ c ∈ codes, c = ExitCode.ok) →
      ∀ e ∈ mergeResults preps codes, e.2.2 = ExitCode.ok
  | [], codes, _, _, _, e, he => absurd he (by simp [mergeResults])
  | (m, none) :: rest, codes, hsome, _, _, _, _ => by
    have := hsome (m, none) (List.mem_cons_self _ _)
    simp at this
  | (m, some gi) :: rest, [], _, hlen, _, _, _ => by simp at hlen
  | (m, some gi) :: rest, c :: codes, hsome, hlen, hok, e, he => by
    rcases List.mem_cons.mp he with rfl | hmem
    · exact hok c (List.mem_cons_self _ _)
    · have hlen2 : codes.length = rest.length := by
        simp only [List.length_cons] at hlen
        omega
      exact mergeResults_all_ok rest codes
        (fun pr hpr => hsome pr (List.mem_cons_of_mem _ hpr)) hlen2
        (fun c2 hc2 => hok c2 (List.mem_cons_of_mem _ hc2)) e hmem

theorem filterMap_length_all_some :
    ∀ (preps : List (SectorUpdateManifest × Option (SectorAllocationClaims × SectorInfo))),
      (∀ pr ∈ preps, pr.2.isSome = true) →
      (preps.filterMap (fun pr => pr.2.map Prod.fst)).length = preps.length
  | [], _ => rfl
  | (m, o) :: rest, h => by
    cases o with
    | none =>
      have := h (m, none) (List.mem_cons_self _ _)
      simp at this
    | some gi =>
      have ih := filterMap_length_all_some rest (fun pr hpr => h pr (List.mem_cons_of_mem _ hpr))
      simp [List.filterMap_cons, ih]

theorem claimAllocationsAux_length (provider : Nat) (curr : Int) :
    ∀ (sectors : List SectorAllocationClaims) (st : RegState) (r : ClaimAllocationsResult),
      claimAllocationsAux provider curr st sectors = Except.ok r →
      r.sector_results.length = sectors.length
  | [], st, r, h => by
    injection h with h
    subst h
    rfl
  | g :: gs, st, r, h => by
    unfold claimAllocationsAux at h
    split at h
    · exact absurd h (by simp)
    · rename_i code space st2 hpg
      split at h
      · exact absurd h (by simp)
      · rename_i r2 haux
        injection h with h
        subst h
        simp [claimAllocationsAux_length provider curr gs st2 r2 haux]

theorem claim_allocations_results_length (st : RegState) (provider : Nat) (curr : Int)
    (sectors : List SectorAllocationClaims) (allOrNothing : Bool)
    (r : ClaimAllocationsResult)
    (h : claim_allocations st provider curr sectors allOrNothing = Except.ok r) :
    r.sector_results.length = sectors.length := by
  unfold claim_allocations at h
  split at h
  · exact absurd h (by simp)
  · rename_i r0 haux
    split at h
    · exact absurd h (by simp)
    · injection h with h
      subst h
      exact claimAllocationsAux_length provider curr sectors st r0 haux

theorem claim_allocations_true_all_ok (st : RegState) (provider : Nat) (curr : Int)
    (sectors : List SectorAllocationClaims) (r : ClaimAllocationsResult)
    (h : claim_allocations st provider curr sectors true = Except.ok r) :
    ∀ c ∈ r.sector_results, c = ExitCode.ok := by
  intro c hc
  unfold claim_allocations at h
  split at h
  · exact absurd h (by simp)
  · rename_i r0 haux
    split at h
    · exact absurd h (by simp)
    · rename_i hcond
      injection h with h
      subst h
      simp only [Bool.true_and, List.any_eq_true, Bool.not_eq_true,
        decide_eq_false_iff_not] at hcond
      by_contra hne
      exact hcond ⟨c, hc, by simp [hne]⟩

theorem any_isNone_false_all_isSome
    (l : List (SectorUpdateManifest × Option (SectorAllocationClaims × SectorInfo)))
    (h : l.any (fun pr => pr.2.isNone) = false) :
    ∀ pr ∈ l, pr.2.isSome = true := by
  intro pr hpr
  cases ho : pr.2 with
  | none =>
    exfalso
    have : l.any (fun pr => pr.2.isNone) = true :=
      List.any_eq_true.mpr ⟨pr, hpr, by rw [ho]; rfl⟩
    rw [h] at this
    exact absurd this (by simp)
  | some gi => rfl

theorem activate_sectors_ok_inv (mst : MinerState) (rst : RegState) (minerId refFee : Nat)
    (curr : Int) (updates : List SectorUpdateManifest) (require : Bool)
    (notifResult : SectorChanges → ExitCode) (r : ActivationResult)
    (h : activate_sectors mst rst minerId refFee curr updates require notifResult =
      Except.ok r) :
    (require && (updates.map (fun m => (m, sectorPrep mst m))).any
        (fun pr => pr.2.isNone)) = false ∧
    ∃ cr, claim_allocations rst minerId curr
        ((updates.map (fun m => (m, sectorPrep mst m))).filterMap
          (fun pr => pr.2.map Prod.fst)) require = Except.ok cr ∧
      r.codes = (mergeResults (updates.map (fun m => (m, sectorPrep mst m)))
        cr.sector_results).map (fun e => e.2.2) ∧
      r.miner = (applySectorEffects refFee mst.sector_size mst
        (mergeResults (updates.map (fun m => (m, sectorPrep mst m)))
          cr.sector_results)).1 ∧
      r.notifications = (applySectorEffects refFee mst.sector_size mst
        (mergeResults (updates.map (fun m => (m, sectorPrep mst m)))
          cr.sector_results)).2.2 := by
  unfold activate_sectors at h
  dsimp only at h
  split at h
  · exact absurd h (by simp)
  · rename_i hcond
    split at h
    · exact absurd h (by simp)
    · rename_i cr hcr
      injection h with h
      subst h
      refine ⟨by simpa using hcond, cr, hcr, rfl, rfl, rfl⟩

/-- C3: the activation batch returns one exit code per requested
sector; with requireActivationSuccess set, any sector failure
(validation, proof or claim) aborts the whole call as one atomic unit —
a call that returns at all carries only OK codes, and an abort returns
no state; without it, each sector is independent: a failing sector
leaves its stored info untouched, and every notification record belongs
to a sector whose code is OK (only successful sectors get their claims,
weights, fees and notifications applied). -/
theorem c3_batch_activation :
    (∀ (mst : MinerState) (rst : RegState) (minerId refFee : Nat) (curr : Int)
        (updates : List SectorUpdateManifest) (require : Bool)
        (notifResult : SectorChanges → ExitCode) (r : ActivationResult),
        activate_sectors mst rst minerId refFee curr updates require notifResult =
          Except.ok r →
        r.codes.length = updates.length)
    ∧ (∀ (mst : MinerState) (rst : RegState) (minerId refFee : Nat) (curr : Int)
        (updates : List SectorUpdateManifest)
        (notifResult : SectorChanges → ExitCode) (r : ActivationResult),
        activate_sectors mst rst minerId refFee curr updates true notifResult =
          Except.ok r →
        ∀ c ∈ r.codes, c = ExitCode.ok)
    ∧ (∀ (mst : MinerState) (rst : RegState) (minerId refFee : Nat) (curr : Int)
        (updates : List SectorUpdateManifest)
        (notifResult : SectorChanges → ExitCode) (r : ActivationResult),
        activate_sectors mst rst minerId refFee curr updates false notifResult =
          Except.ok r →
        (updates.map (fun m => m.sector)).Nodup →
        ∀ mc ∈ updates.zip r.codes, mc.2 ≠ ExitCode.ok →
          lookupSector r.miner mc.1.sector = lookupSector mst mc.1.sector)
    ∧ (∀ (mst : MinerState) (rst : RegState) (minerId refFee : Nat) (curr : Int)
        (updates : List SectorUpdateManifest) (require : Bool)
        (notifResult : SectorChanges → ExitCode) (r : ActivationResult),
        activate_sectors mst rst minerId refFee curr updates require notifResult =
          Except.ok r →
        ∀ ch ∈ r.notifications,
          ∃ mc ∈ updates.zip r.codes, mc.2 = ExitCode.ok ∧ ch.sector = mc.1.sector) := by
  refine ⟨?_, ?_, ?_, ?_⟩
  · intro mst rst minerId refFee curr updates require notifResult r h
    obtain ⟨hcond, cr, hcr, hcodes, hminer, hnotifs⟩ :=
      activate_sectors_ok_inv mst rst minerId refFee curr updates require notifResult r h
    rw [hcodes, List.length_map, mergeResults_length, List.length_map]
  · intro mst rst minerId refFee curr updates notifResult r h c hc
    obtain ⟨hcond, cr, hcr, hcodes, hminer, hnotifs⟩ :=
      activate_sectors_ok_inv mst rst minerId refFee curr updates true notifResult r h
    rw [Bool.true_and] at hcond
    have hsome := any_isNone_false_all_isSome _ hcond
    have hallok := claim_allocations_true_all_ok rst minerId curr _ cr hcr
    have hlen : cr.sector_results.length =
        (updates.map (fun m => (m, sectorPrep mst m))).length := by
      rw [claim_allocations_results_length rst minerId curr _ true cr hcr]
      exact filterMap_length_all_some _ hsome
    rw [hcodes] at hc
    obtain ⟨e, he, heq⟩ := List.mem_map.mp hc
    rw [← heq]
    exact mergeResults_all_ok _ cr.sector_results hsome hlen hallok e he
  · intro mst rst minerId refFee curr updates notifResult r h hnodup mc hmc hcne
    obtain ⟨hcond, cr, hcr, hcodes, hminer, hnotifs⟩ :=
      activate_sectors_ok_inv mst rst minerId refFee curr updates false notifResult r h
    have hfst : (mergeResults (updates.map (fun m => (m, sectorPrep mst m)))
        cr.sector_results).map (fun e => e.1) = updates := by
      rw [mergeResults_fst, List.map_map]
      exact List.map_id updates
    have hzip : updates.zip r.codes =
        (mergeResults (updates.map (fun m => (m, sectorPrep mst m)))
          cr.sector_results).map (fun e => (e.1, e.2.2)) := by
      conv_lhs => rw [← hfst, hcodes]
      rw [List.zip_map']
    rw [hzip] at hmc
    obtain ⟨e, he, heq⟩ := List.mem_map.mp hmc
    have hsecnodup : ((mergeResults (updates.map (fun m => (m, sectorPrep mst m)))
        cr.sector_results).map (fun x => x.1.sector)).Nodup := by
      have hms : (mergeResults (updates.map (fun m => (m, sectorPrep mst m)))
          cr.sector_results).map (fun x => x.1.sector) =
          updates.map (fun m => m.sector) := by
        conv_rhs => rw [← hfst]
        rw [List.map_map]
        rfl
      rw [hms]
      exact hnodup
    rw [hminer]
    apply applySectorEffects_local
    intro e2 he2 hok2
    intro hsec
    have he2e : e2 = e :=
      List.inj_on_of_nodup_map hsecnodup he2 he (by rw [hsec, ← heq])
    rw [he2e] at hok2
    rw [← heq] at hcne
    exact hcne hok2
  · intro mst rst minerId refFee curr updates require notifResult r h ch hch
    obtain ⟨hcond, cr, hcr, hcodes, hminer, hnotifs⟩ :=
      activate_sectors_ok_inv mst rst minerId refFee curr updates require notifResult r h
    rw [hnotifs] at hch
    obtain ⟨e, he, hok, hs⟩ := applySectorEffects_notifs refFee mst.sector_size _ mst ch hch
    have hfst : (mergeResults (updates.map (fun m => (m, sectorPrep mst m)))
        cr.sector_results).map (fun e => e.1) = updates := by
      rw [mergeResults_fst, List.map_map]
      exact List.map_id updates
    have hzip : updates.zip r.codes =
        (mergeResults (updates.map (fun m => (m, sectorPrep mst m)))
          cr.sector_results).map (fun e => (e.1, e.2.2)) := by
      conv_lhs => rw [← hfst, hcodes]
      rw [List.zip_map']
    refine ⟨(e.1, e.2.2), ?_, hok, hs⟩
    rw [hzip]
    exact List.mem_map_of_mem (fun e => (e.1, e.2.2)) he

/-- Result of the concrete successful single-sector activation. -/
def exActivation : ActivationResult :=
  { codes := [ExitCode.ok], claims_made := [exGroupGood], notifications := [],
    power_delta := (0, 72),
    miner := updateSector exMiner 1000 (activatedInfo 100 8 exSectorInfo [exPiece]),
    registry := exSt1 }

/-- Witness for C3: the strict-mode conjunct applied to the concrete
one-sector batch, whose single code is OK. -/
theorem c3_batch_activation_witness :
    activate_sectors exMiner exState 301 100 0 [exManifest] true (fun _ => ExitCode.ok) =
      Except.ok exActivation ∧ ExitCode.ok = ExitCode.ok :=
  ⟨by rfl,
    c3_batch_activation.2.1 exMiner exState 301 100 0 [exManifest] (fun _ => ExitCode.ok)
      exActivation (by rfl) ExitCode.ok (by decide)⟩

end BuiltinActors
